import Mathlib

/-!
# BusTub `ParallelBufferPoolManager`: shard routing and round-robin allocation

A shallow embedding of `src/buffer/parallel_buffer_pool_manager.cpp`.

* The router object is the record `ParallelBufferPoolManager` of its four
  members.  `instance_` is a vector of pointers; a pointer to a shard is a value
  of an arbitrary handle type `H`.
* The shards (`BufferPoolManagerInstance`) are external collaborators.  Whatever
  they own, together with the disk and log managers they share, is one value of
  an arbitrary type `W` (the world).  A call through a shard pointer is a
  function of the handle and the world, which returns the result of the call and
  the world after it.  Each router method takes the shard primitive it calls as
  an argument, so every statement below holds for every behaviour of the shards.
* `size_t` is an unsigned 64 bit integer: a `Nat` below `SIZE`, with an explicit
  `% SIZE` wherever the source adds.  The members are declared in
  `parallel_buffer_pool_manager.h`, which is not among the sources; they are
  taken to be `size_t`, the type of the constructor arguments copied into them
  and of the loop indices they are combined with.
* `page_id_t` is declared in `common/config.h` (not among the sources) as
  `int32_t`: an `Int`, converted to `size_t` by `toSizeT` where the source mixes
  it with a `size_t`.
* Indexing `instance_` out of bounds and `%` by zero have no defined result:
  the methods that can do either return an `Option`, `none` standing for that.
* `ParallelBufferPoolManager.call` is one method call on the router object, as a
  function from the object and the world before the call to the result, the
  object and the world after it; statements about what the methods change are
  about it.
* Which calls a method makes is read off by running it against shard primitives
  that record every call (`logNewPage`, `logFetchPage`, ..., `logCreate`).
-/

namespace bustub

/-! ## Machine integers -/

/-- The number of values of `size_t`, `2 ^ 64`. -/
def SIZE : Nat := 18446744073709551616

/-- The largest `page_id_t` (`int32_t`) value, `2 ^ 31 - 1`. -/
def INT32_MAX : Int := 2147483647

/-- Conversion of a signed integer to `size_t`: the value modulo `2 ^ 64`. -/
def toSizeT (x : Int) : Nat := (x % (SIZE : Int)).toNat

/-- The `int` result of a signed 32 bit operation whose exact value is `x`.
Signed overflow is undefined in C++; the embedding wraps around as two's
complement hardware does.  Statements about a value computed this way
assume that it did not overflow. -/
def wrapInt32 (x : Int) : Int := (x + 2147483648) % 4294967296 - 2147483648

/-! ## Router state -/

/-- The members of `ParallelBufferPoolManager`. -/
structure ParallelBufferPoolManager (H : Type) where
  /-- The capacity of each shard. -/
  pool_size_ : Nat
  /-- The shard count. -/
  num_instances_ : Nat
  /-- The shard pointers, in the order the constructor pushed them. -/
  instance_ : List H
  /-- The index at which the next `NewPgImp` starts probing. -/
  start_index : Nat

/-- Well-formed router states: `instance_` holds `num_instances_` pointers and
every `size_t` member is in the range of `size_t`. -/
def ParallelBufferPoolManager.WF {H : Type} (m : ParallelBufferPoolManager H) : Prop :=
  m.instance_.length = m.num_instances_ ∧ m.num_instances_ < SIZE ∧
    m.start_index < SIZE ∧ m.pool_size_ < SIZE

instance {H : Type} (m : ParallelBufferPoolManager H) : Decidable m.WF :=
  inferInstanceAs (Decidable (_ ∧ _))

/-! ## Calls into the shards -/

/-- One call into a shard, with its arguments and what the shard returned. -/
inductive Call (Page : Type) where
  | FetchPage (page_id : Int) (ret : Option Page)
  | UnpinPage (page_id : Int) (is_dirty : Bool) (ret : Bool)
  | FlushPage (page_id : Int) (ret : Bool)
  | NewPage (ret : Option (Page × Int))
  | DeletePage (page_id : Int) (ret : Bool)
  | FlushAllPages

/-- A world that also carries the calls made so far, oldest first. -/
abbrev Logged (H W Page : Type) : Type := W × List (H × Call Page)

/-- The primitive `FetchPage`, recording each call. -/
def logFetchPage {H W Page : Type} (FetchPage : H → Int → W → Option Page × W) :
    H → Int → Logged H W Page → Option Page × Logged H W Page :=
  fun h page_id s =>
    ((FetchPage h page_id s.1).1,
      ((FetchPage h page_id s.1).2, s.2 ++ [(h, Call.FetchPage page_id (FetchPage h page_id s.1).1)]))

/-- The primitive `UnpinPage`, recording each call. -/
def logUnpinPage {H W Page : Type} (UnpinPage : H → Int → Bool → W → Bool × W) :
    H → Int → Bool → Logged H W Page → Bool × Logged H W Page :=
  fun h page_id is_dirty s =>
    ((UnpinPage h page_id is_dirty s.1).1,
      ((UnpinPage h page_id is_dirty s.1).2,
        s.2 ++ [(h, Call.UnpinPage page_id is_dirty (UnpinPage h page_id is_dirty s.1).1)]))

/-- The primitive `FlushPage`, recording each call. -/
def logFlushPage {H W Page : Type} (FlushPage : H → Int → W → Bool × W) :
    H → Int → Logged H W Page → Bool × Logged H W Page :=
  fun h page_id s =>
    ((FlushPage h page_id s.1).1,
      ((FlushPage h page_id s.1).2, s.2 ++ [(h, Call.FlushPage page_id (FlushPage h page_id s.1).1)]))

/-- The primitive `NewPage`, recording each call. -/
def logNewPage {H W Page : Type} (NewPage : H → W → Option (Page × Int) × W) :
    H → Logged H W Page → Option (Page × Int) × Logged H W Page :=
  fun h s => ((NewPage h s.1).1, ((NewPage h s.1).2, s.2 ++ [(h, Call.NewPage (NewPage h s.1).1)]))

/-- The primitive `DeletePage`, recording each call. -/
def logDeletePage {H W Page : Type} (DeletePage : H → Int → W → Bool × W) :
    H → Int → Logged H W Page → Bool × Logged H W Page :=
  fun h page_id s =>
    ((DeletePage h page_id s.1).1,
      ((DeletePage h page_id s.1).2, s.2 ++ [(h, Call.DeletePage page_id (DeletePage h page_id s.1).1)]))

/-- The primitive `FlushAllPages`, recording each call. -/
def logFlushAllPages {H W Page : Type} (FlushAllPages : H → W → W) :
    H → Logged H W Page → Logged H W Page :=
  fun h s => (FlushAllPages h s.1, s.2 ++ [(h, Call.FlushAllPages)])

/-! ## The router methods -/

/-- The loop of the constructor: `k` iterations are left, `i` is the loop index. -/
def ParallelBufferPoolManager.newLoop {H W : Type} (create : Nat → Nat → Nat → W → H × W)
    (pool_size num_instances : Nat) : Nat → Nat → List H → W → List H × W
  | 0, _, acc, w => (acc, w)
  | k + 1, i, acc, w =>
    ParallelBufferPoolManager.newLoop create pool_size num_instances k (i + 1)
      (acc ++ [(create pool_size num_instances i w).1]) (create pool_size num_instances i w).2

/-- The constructor.  `create pool_size num_instances i` is
`new BufferPoolManagerInstance(pool_size, num_instances, i, disk_manager, log_manager)`.
The constructor body does not assign `start_index`; its initial value comes
from the header and is the argument `start_index`. -/
def ParallelBufferPoolManager.new {H W : Type} (create : Nat → Nat → Nat → W → H × W)
    (num_instances pool_size start_index : Nat) (w : W) : ParallelBufferPoolManager H × W :=
  ({ pool_size_ := pool_size
     num_instances_ := num_instances
     instance_ := (ParallelBufferPoolManager.newLoop create pool_size num_instances num_instances 0 [] w).1
     start_index := start_index },
    (ParallelBufferPoolManager.newLoop create pool_size num_instances num_instances 0 [] w).2)

/-- Method `GetPoolSize`: `pool_size_ * num_instances_` in `size_t`. -/
def GetPoolSize {H : Type} (m : ParallelBufferPoolManager H) : Nat :=
  (m.pool_size_ * m.num_instances_) % SIZE

/-- Method `GetBufferPoolManager`: `instance_[page_id % num_instances_]`, the
page identifier converted to `size_t` for the division. -/
def GetBufferPoolManager {H : Type} (m : ParallelBufferPoolManager H) (page_id : Int) : Option H :=
  if m.num_instances_ = 0 then none
  else m.instance_[toSizeT page_id % m.num_instances_]?

/-- Method `FetchPgImp`. -/
def FetchPgImp {H W Page : Type} (FetchPage : H → Int → W → Option Page × W)
    (m : ParallelBufferPoolManager H) (page_id : Int) (w : W) : Option (Option Page × W) :=
  match GetBufferPoolManager m page_id with
  | none => none
  | some buffer_pool_manager => some (FetchPage buffer_pool_manager page_id w)

/-- Method `UnpinPgImp`. -/
def UnpinPgImp {H W : Type} (UnpinPage : H → Int → Bool → W → Bool × W)
    (m : ParallelBufferPoolManager H) (page_id : Int) (is_dirty : Bool) (w : W) :
    Option (Bool × W) :=
  match GetBufferPoolManager m page_id with
  | none => none
  | some buffer_pool_manager => some (UnpinPage buffer_pool_manager page_id is_dirty w)

/-- Method `FlushPgImp`. -/
def FlushPgImp {H W : Type} (FlushPage : H → Int → W → Bool × W)
    (m : ParallelBufferPoolManager H) (page_id : Int) (w : W) : Option (Bool × W) :=
  match GetBufferPoolManager m page_id with
  | none => none
  | some buffer_pool_manager => some (FlushPage buffer_pool_manager page_id w)

/-- The loop of `NewPgImp` followed by the two statements after it: `k`
iterations are left (`k = num_instances_ - i`), `i` is the loop index.  The
result is the returned page with the value left in `*page_id` (or `none` for
`nullptr`), the router state and the world. -/
def NewPgImp.loop {H W Page : Type} (NewPage : H → W → Option (Page × Int) × W)
    (m : ParallelBufferPoolManager H) :
    Nat → Nat → W → Option (Option (Page × Int) × ParallelBufferPoolManager H × W)
  | 0, _, w => some (none, { m with start_index := (m.start_index + 1) % SIZE }, w)
  | k + 1, i, w =>
    if m.num_instances_ = 0 then none
    else
      match m.instance_[((m.start_index + i) % SIZE) % m.num_instances_]? with
      | none => none
      | some h =>
        match NewPage h w with
        | (some (page, page_id), w1) =>
          some (some (page, page_id),
            { m with start_index := toSizeT (wrapInt32 (page_id + 1)) % m.num_instances_ }, w1)
        | (none, w1) => NewPgImp.loop NewPage m k (i + 1) w1

/-- Method `NewPgImp`. -/
def NewPgImp {H W Page : Type} (NewPage : H → W → Option (Page × Int) × W)
    (m : ParallelBufferPoolManager H) (w : W) :
    Option (Option (Page × Int) × ParallelBufferPoolManager H × W) :=
  NewPgImp.loop NewPage m m.num_instances_ 0 w

/-- Method `DeletePgImp`. -/
def DeletePgImp {H W : Type} (DeletePage : H → Int → W → Bool × W)
    (m : ParallelBufferPoolManager H) (page_id : Int) (w : W) : Option (Bool × W) :=
  match GetBufferPoolManager m page_id with
  | none => none
  | some buffer_pool_manager => some (DeletePage buffer_pool_manager page_id w)

/-- The loop of `FlushAllPgsImp`: `k` iterations are left, `i` is the loop index. -/
def FlushAllPgsImp.loop {H W : Type} (FlushAllPages : H → W → W)
    (m : ParallelBufferPoolManager H) : Nat → Nat → W → Option W
  | 0, _, w => some w
  | k + 1, i, w =>
    match m.instance_[i]? with
    | none => none
    | some h => FlushAllPgsImp.loop FlushAllPages m k (i + 1) (FlushAllPages h w)

/-- Method `FlushAllPgsImp`. -/
def FlushAllPgsImp {H W : Type} (FlushAllPages : H → W → W)
    (m : ParallelBufferPoolManager H) (w : W) : Option W :=
  FlushAllPgsImp.loop FlushAllPages m m.num_instances_ 0 w

/-! ## Auxiliary definitions for the statements -/

/-- The value `NewPgImp` assigns to `start_index`, as a function of what it
returned: line 86 after a sweep without success, line 82 after a success. -/
def cursorAfter {H Page : Type} (m : ParallelBufferPoolManager H) :
    Option (Page × Int) → Nat
  | none => (m.start_index + 1) % SIZE
  | some (_, page_id) => toSizeT (wrapInt32 (page_id + 1)) % m.num_instances_

/-- Consecutive calls of `NewPgImp`, `k` of them, each starting from the router
state and the world the previous call left.  The result lists what the calls
returned, oldest first. -/
def NewPgImp.consecutive {H W Page : Type} (NewPage : H → W → Option (Page × Int) × W) :
    Nat → ParallelBufferPoolManager H → W →
      Option (List (Option (Page × Int)) × ParallelBufferPoolManager H × W)
  | 0, m, w => some ([], m, w)
  | k + 1, m, w =>
    match NewPgImp NewPage m w with
    | none => none
    | some (r, m1, w1) =>
      match NewPgImp.consecutive NewPage k m1 w1 with
      | none => none
      | some (rs, m2, w2) => some (r :: rs, m2, w2)

/-- Modelled from the spec: the shard of Scenario A (`BufferPoolManagerInstance`
is not among the sources).  Per-shard capacity is 1: the shard has one frame,
which is free or holds one pinned page.  With `N = 2` shards, a shard assigns
`next_page_id` and then steps it by 2, so all identifiers of one shard are
congruent modulo 2. -/
structure ScenarioShard where
  /-- The page pinned in the one frame, if any. -/
  pinned : Option Int
  /-- The identifier the shard assigns next. -/
  next_page_id : Int

/-- Modelled from the spec: the allocation primitive of the Scenario A shards.
The world is the list of the two shards and a shard pointer is a position in
it.  A shard whose frame holds a pinned page reports exhaustion; otherwise it
pins a new page and returns it with its identifier. -/
def ScenarioShard.NewPage (h : Nat) (w : List ScenarioShard) :
    Option (Int × Int) × List ScenarioShard :=
  match w[h]? with
  | none => (none, w)
  | some s =>
    match s.pinned with
    | some _ => (none, w)
    | none =>
      (some (s.next_page_id, s.next_page_id),
        w.set h { pinned := some s.next_page_id, next_page_id := s.next_page_id + 2 })

/-! ## The router as an object -/

/-- The interface `BufferPoolManager` through which the router calls a shard:
one field per virtual method the router uses. -/
structure BufferPoolManager (H W Page : Type) where
  FetchPage : H → Int → W → Option Page × W
  UnpinPage : H → Int → Bool → W → Bool × W
  FlushPage : H → Int → W → Bool × W
  NewPage : H → W → Option (Page × Int) × W
  DeletePage : H → Int → W → Bool × W
  FlushAllPages : H → W → W

/-- The methods of the router, with their arguments. -/
inductive Method where
  | GetPoolSize
  | FetchPgImp (page_id : Int)
  | UnpinPgImp (page_id : Int) (is_dirty : Bool)
  | FlushPgImp (page_id : Int)
  | NewPgImp
  | DeletePgImp (page_id : Int)
  | FlushAllPgsImp
  deriving DecidableEq

/-- What a method of the router returns. -/
inductive Ret (Page : Type) where
  | size (n : Nat)
  | page (p : Option Page)
  | flag (b : Bool)
  | newPage (r : Option (Page × Int))
  | void

/-- One method call on the router object: what it returns, the object after the
call and the world after the call.  `NewPgImp` is the only method whose body
assigns a member; after every other method the object is the one the method
was called on. -/
def ParallelBufferPoolManager.call {H W Page : Type} (bpm : BufferPoolManager H W Page)
    (method : Method) (m : ParallelBufferPoolManager H) (w : W) :
    Option (Ret Page × ParallelBufferPoolManager H × W) :=
  match method with
  | Method.GetPoolSize => some (Ret.size (GetPoolSize m), m, w)
  | Method.FetchPgImp page_id =>
    match FetchPgImp bpm.FetchPage m page_id w with
    | none => none
    | some (p, w1) => some (Ret.page p, m, w1)
  | Method.UnpinPgImp page_id is_dirty =>
    match UnpinPgImp bpm.UnpinPage m page_id is_dirty w with
    | none => none
    | some (b, w1) => some (Ret.flag b, m, w1)
  | Method.FlushPgImp page_id =>
    match FlushPgImp bpm.FlushPage m page_id w with
    | none => none
    | some (b, w1) => some (Ret.flag b, m, w1)
  | Method.NewPgImp =>
    match NewPgImp bpm.NewPage m w with
    | none => none
    | some (r, m1, w1) => some (Ret.newPage r, m1, w1)
  | Method.DeletePgImp page_id =>
    match DeletePgImp bpm.DeletePage m page_id w with
    | none => none
    | some (b, w1) => some (Ret.flag b, m, w1)
  | Method.FlushAllPgsImp =>
    match FlushAllPgsImp bpm.FlushAllPages m w with
    | none => none
    | some w1 => some (Ret.void, m, w1)

/-- The shard constructor `create`, recording each construction: the pointer it
returned and its arguments `pool_size`, `num_instances`, `instance_index`. -/
def logCreate {H W : Type} (create : Nat → Nat → Nat → W → H × W) :
    Nat → Nat → Nat → W × List (H × Nat × Nat × Nat) → H × (W × List (H × Nat × Nat × Nat)) :=
  fun pool_size num_instances i s =>
    ((create pool_size num_instances i s.1).1,
      ((create pool_size num_instances i s.1).2,
        s.2 ++ [((create pool_size num_instances i s.1).1, pool_size, num_instances, i)]))

/-- Example shards for the concrete instances below: the world counts the calls
made, a shard pointer is a number; fetching page `p` from shard `h` yields the
handle `h + p`, allocation succeeds on shard 10 only, with identifier 6. -/
def countingShards : BufferPoolManager Nat Nat Nat where
  FetchPage := fun h page_id w => (some (h + page_id.toNat), w + 1)
  UnpinPage := fun _ _ is_dirty w => (is_dirty, w + 1)
  FlushPage := fun _ _ w => (true, w + 1)
  NewPage := fun h w => if h = 10 then (some (h, 6), w + 1) else (none, w + 1)
  DeletePage := fun _ _ w => (false, w + 1)
  FlushAllPages := fun _ w => w + 1

/-! ## Machine integer facts -/

theorem toSizeT_of_nonneg (x : Int) (h0 : 0 ≤ x) (h1 : x ≤ INT32_MAX) :
    toSizeT x = x.toNat := by
  unfold toSizeT SIZE
  unfold INT32_MAX at h1
  congr 1
  apply Int.emod_eq_of_lt h0
  norm_num
  omega

theorem wrapInt32_succ (x : Int) (h0 : 0 ≤ x) (h1 : x < INT32_MAX) :
    wrapInt32 (x + 1) = x + 1 := by
  unfold wrapInt32
  unfold INT32_MAX at h1
  omega

/-! ## Shard selection -/

theorem GetBufferPoolManager_eq {H : Type} (m : ParallelBufferPoolManager H) (p : Int)
    (hwf : m.WF) (hN : 0 < m.num_instances_) (hp : 0 ≤ p) (hr : p ≤ INT32_MAX) :
    ∃ h, m.instance_[p.toNat % m.num_instances_]? = some h ∧ GetBufferPoolManager m p = some h := by
  have hlt : p.toNat % m.num_instances_ < m.instance_.length := by
    rw [hwf.1]
    exact Nat.mod_lt _ hN
  refine ⟨m.instance_[p.toNat % m.num_instances_], List.getElem?_eq_getElem hlt, ?_⟩
  unfold GetBufferPoolManager
  rw [if_neg (Nat.pos_iff_ne_zero.mp hN), toSizeT_of_nonneg p hp hr]
  exact List.getElem?_eq_getElem hlt

/-- C8: for a page identifier `p ≥ 0` and `N > 0` shards, `GetBufferPoolManager`
selects `instance_[p mod N]`; the index is below `N` and below the length of
`instance_`, so the lookup is in bounds and yields a shard; and the selection is
the same in every router state with the same shard collection and count. -/
theorem GetBufferPoolManager_selects_mod {H : Type} (m : ParallelBufferPoolManager H) (p : Int)
    (hwf : m.WF) (hN : 0 < m.num_instances_) (hp : 0 ≤ p) (hr : p ≤ INT32_MAX) :
    p.toNat % m.num_instances_ < m.num_instances_ ∧
    p.toNat % m.num_instances_ < m.instance_.length ∧
    GetBufferPoolManager m p = m.instance_[p.toNat % m.num_instances_]? ∧
    (∃ h, GetBufferPoolManager m p = some h) ∧
    ∀ m2 : ParallelBufferPoolManager H, m2.num_instances_ = m.num_instances_ →
      m2.instance_ = m.instance_ → GetBufferPoolManager m2 p = GetBufferPoolManager m p := by
  obtain ⟨h, h1, h2⟩ := GetBufferPoolManager_eq m p hwf hN hp hr
  refine ⟨Nat.mod_lt _ hN, ?_, ?_, ⟨h, h2⟩, ?_⟩
  · rw [hwf.1]
    exact Nat.mod_lt _ hN
  · rw [h1, h2]
  · intro m2 e1 e2
    unfold GetBufferPoolManager
    rw [e1, e2]

/-- Witness of C8: three shards, page identifier 7. -/
theorem GetBufferPoolManager_selects_mod_witness :
    GetBufferPoolManager (⟨4, 3, [10, 11, 12], 0⟩ : ParallelBufferPoolManager Nat) 7 = some 11 ∧
    GetBufferPoolManager (⟨4, 3, [10, 11, 12], 0⟩ : ParallelBufferPoolManager Nat) 7
      = [10, 11, 12][(7 : Int).toNat % 3]? :=
  ⟨by decide,
    (GetBufferPoolManager_selects_mod (⟨4, 3, [10, 11, 12], 0⟩ : ParallelBufferPoolManager Nat) 7
      (by decide) (by decide) (by decide) (by decide)).2.2.1⟩

/-! ## Identifier-keyed operations -/

/-- C7: for a page identifier `pid ≥ 0` and `N > 0` shards there is one shard
`h = instance_[pid mod N]` such that each of `FetchPgImp`, `UnpinPgImp`,
`FlushPgImp` and `DeletePgImp` makes exactly one call, the same-named primitive
of `h` with the same arguments, and returns what that call returned, leaving
the world as that call left it. -/
theorem keyed_operations_forward {H : Type} (m : ParallelBufferPoolManager H) (pid : Int)
    (hwf : m.WF) (hN : 0 < m.num_instances_) (hp : 0 ≤ pid) (hr : pid ≤ INT32_MAX) :
    ∃ h, m.instance_[pid.toNat % m.num_instances_]? = some h ∧
      (∀ (W Page : Type) (FetchPage : H → Int → W → Option Page × W) (w : W),
        FetchPgImp FetchPage m pid w = some (FetchPage h pid w) ∧
        FetchPgImp (logFetchPage FetchPage) m pid (w, [])
          = some ((FetchPage h pid w).1,
              ((FetchPage h pid w).2, [(h, Call.FetchPage pid (FetchPage h pid w).1)]))) ∧
      (∀ (W Page : Type) (UnpinPage : H → Int → Bool → W → Bool × W) (is_dirty : Bool) (w : W),
        UnpinPgImp UnpinPage m pid is_dirty w = some (UnpinPage h pid is_dirty w) ∧
        UnpinPgImp (logUnpinPage UnpinPage) m pid is_dirty ((w, []) : Logged H W Page)
          = some ((UnpinPage h pid is_dirty w).1,
              ((UnpinPage h pid is_dirty w).2,
                [(h, Call.UnpinPage pid is_dirty (UnpinPage h pid is_dirty w).1)]))) ∧
      (∀ (W Page : Type) (FlushPage : H → Int → W → Bool × W) (w : W),
        FlushPgImp FlushPage m pid w = some (FlushPage h pid w) ∧
        FlushPgImp (logFlushPage FlushPage) m pid ((w, []) : Logged H W Page)
          = some ((FlushPage h pid w).1,
              ((FlushPage h pid w).2, [(h, Call.FlushPage pid (FlushPage h pid w).1)]))) ∧
      (∀ (W Page : Type) (DeletePage : H → Int → W → Bool × W) (w : W),
        DeletePgImp DeletePage m pid w = some (DeletePage h pid w) ∧
        DeletePgImp (logDeletePage DeletePage) m pid ((w, []) : Logged H W Page)
          = some ((DeletePage h pid w).1,
              ((DeletePage h pid w).2, [(h, Call.DeletePage pid (DeletePage h pid w).1)]))) := by
  obtain ⟨h, h1, h2⟩ := GetBufferPoolManager_eq m pid hwf hN hp hr
  refine ⟨h, h1, ?_, ?_, ?_, ?_⟩
  · intro W Page F w
    simp [FetchPgImp, h2, logFetchPage]
  · intro W Page F d w
    simp [UnpinPgImp, h2, logUnpinPage]
  · intro W Page F w
    simp [FlushPgImp, h2, logFlushPage]
  · intro W Page F w
    simp [DeletePgImp, h2, logDeletePage]

/-- Witness of C7: three shards, page identifier 7, which shard 11 (index 1) serves. -/
theorem keyed_operations_forward_witness :
    FetchPgImp (fun (h : Nat) (pid : Int) (w : Nat) => (some (h + pid.toNat), w + 1))
        (⟨4, 3, [10, 11, 12], 0⟩ : ParallelBufferPoolManager Nat) 7 0 = some (some 18, 1) ∧
      UnpinPgImp (logUnpinPage (fun (h : Nat) (_ : Int) (d : Bool) (w : Nat) => (d, w + h)))
        (⟨4, 3, [10, 11, 12], 0⟩ : ParallelBufferPoolManager Nat) 7 true ((0, []) : Logged Nat Nat Unit)
        = some (true, (11, [(11, Call.UnpinPage 7 true true)])) := by
  obtain ⟨h, h1, hF, hU, -, -⟩ :=
    keyed_operations_forward (⟨4, 3, [10, 11, 12], 0⟩ : ParallelBufferPoolManager Nat) 7
      (by decide) (by decide) (by decide) (by decide)
  have h11 : h = 11 := by
    have e : ([10, 11, 12] : List Nat)[(7 : Int).toNat % 3]? = some 11 := by decide
    exact (Option.some.inj (h1.symm.trans e))
  subst h11
  refine ⟨?_, ?_⟩
  · rw [(hF Nat Nat _ 0).1]
    rfl
  · rw [(hU Nat Unit _ true 0).2]

/-! ## Flushing every shard -/

theorem FlushAllPgsImp.loop_flushes {H W Page : Type} (FlushAllPages : H → W → W)
    (m : ParallelBufferPoolManager H) :
    ∀ (k i : Nat) (w : W) (log0 : List (H × Call Page)), i + k = m.instance_.length →
      FlushAllPgsImp.loop (logFlushAllPages FlushAllPages) m k i (w, log0)
          = some ((m.instance_.drop i).foldl (fun v h => FlushAllPages h v) w,
              log0 ++ (m.instance_.drop i).map (fun h => (h, Call.FlushAllPages))) ∧
        FlushAllPgsImp.loop FlushAllPages m k i w
          = some ((m.instance_.drop i).foldl (fun v h => FlushAllPages h v) w) := by
  intro k
  induction k with
  | zero =>
    intro i w log0 hi
    have hd : m.instance_.drop i = [] := List.drop_eq_nil_of_le (by omega)
    simp [FlushAllPgsImp.loop, hd]
  | succ k ih =>
    intro i w log0 hi
    have hlt : i < m.instance_.length := by omega
    have hd : m.instance_.drop i = m.instance_[i] :: m.instance_.drop (i + 1) :=
      List.drop_eq_getElem_cons hlt
    have hg : m.instance_[i]? = some m.instance_[i] := List.getElem?_eq_getElem hlt
    obtain ⟨e1, e2⟩ := ih (i + 1) (FlushAllPages m.instance_[i] w)
      (log0 ++ [(m.instance_[i], Call.FlushAllPages)]) (by omega)
    constructor
    · simp only [FlushAllPgsImp.loop, hg, logFlushAllPages]
      rw [e1, hd]
      simp only [List.foldl_cons, List.map_cons, List.append_assoc, List.singleton_append]
    · simp only [FlushAllPgsImp.loop, hg]
      rw [e2, hd]
      simp only [List.foldl_cons]

/-- C10: in a well-formed state `FlushAllPgsImp` returns, and the calls it makes
are exactly one `FlushAllPages` per shard, in the order `instance_[0]`,
`instance_[1]`, ..., `instance_[N-1]`, whatever each of these calls does to the
world; the world after it is the world after these `N` calls in this order. -/
theorem FlushAllPgsImp_calls_each_shard_once {H W Page : Type} (FlushAllPages : H → W → W)
    (m : ParallelBufferPoolManager H) (w : W) (hwf : m.WF) :
    FlushAllPgsImp (logFlushAllPages FlushAllPages) m ((w, []) : Logged H W Page)
        = some (m.instance_.foldl (fun v h => FlushAllPages h v) w,
            m.instance_.map (fun h => (h, Call.FlushAllPages))) ∧
      FlushAllPgsImp FlushAllPages m w
        = some (m.instance_.foldl (fun v h => FlushAllPages h v) w) ∧
      (m.instance_.map (fun h => (h, (Call.FlushAllPages : Call Page)))).length
        = m.num_instances_ ∧
      ∀ i, i < m.num_instances_ →
        ∃ h, m.instance_[i]? = some h ∧
          (m.instance_.map (fun h => (h, (Call.FlushAllPages : Call Page))))[i]?
            = some (h, Call.FlushAllPages) := by
  obtain ⟨e1, e2⟩ := @FlushAllPgsImp.loop_flushes H W Page FlushAllPages m m.num_instances_ 0 w []
    (by rw [hwf.1]; omega)
  refine ⟨?_, ?_, ?_, ?_⟩
  · simpa [FlushAllPgsImp] using e1
  · simpa [FlushAllPgsImp] using e2
  · simp [hwf.1]
  · intro i hi
    have hlt : i < m.instance_.length := by rw [hwf.1]; exact hi
    refine ⟨m.instance_[i], List.getElem?_eq_getElem hlt, ?_⟩
    simp [List.getElem?_eq_getElem hlt]

/-- Witness of C10: three shards; the world is the list of the shards flushed. -/
theorem FlushAllPgsImp_calls_each_shard_once_witness :
    FlushAllPgsImp (logFlushAllPages (fun (h : Nat) (v : List Nat) => v ++ [h]))
        (⟨4, 3, [10, 11, 12], 2⟩ : ParallelBufferPoolManager Nat) (([], []) : Logged Nat (List Nat) Unit)
      = some ([10, 11, 12],
          [(10, Call.FlushAllPages), (11, Call.FlushAllPages), (12, Call.FlushAllPages)]) :=
  (FlushAllPgsImp_calls_each_shard_once (fun (h : Nat) (v : List Nat) => v ++ [h])
    (⟨4, 3, [10, 11, 12], 2⟩ : ParallelBufferPoolManager Nat) [] (by decide)).1

/-! ## Round-robin allocation -/

theorem NewPgImp.loop_state {H W Page : Type} (NewPage : H → W → Option (Page × Int) × W)
    (m : ParallelBufferPoolManager H) :
    ∀ (k i : Nat) (w : W) (r : Option (Page × Int)) (m1 : ParallelBufferPoolManager H) (w1 : W),
      NewPgImp.loop NewPage m k i w = some (r, m1, w1) →
        m1 = { m with start_index := cursorAfter m r } := by
  intro k
  induction k with
  | zero =>
    intro i w r m1 w1 h
    simp only [NewPgImp.loop, Option.some.injEq, Prod.mk.injEq] at h
    obtain ⟨rfl, rfl, -⟩ := h
    rfl
  | succ k ih =>
    intro i w r m1 w1 h
    simp only [NewPgImp.loop] at h
    split at h
    · exact absurd h (by simp)
    · split at h
      · exact absurd h (by simp)
      · split at h
        · simp only [Option.some.injEq, Prod.mk.injEq] at h
          obtain ⟨rfl, rfl, -⟩ := h
          rfl
        · exact ih _ _ _ _ _ h

theorem NewPgImp.loop_probes {H W Page : Type} (NewPage : H → W → Option (Page × Int) × W)
    (m : ParallelBufferPoolManager H) (hlen : m.instance_.length = m.num_instances_)
    (hc : m.start_index + m.num_instances_ ≤ SIZE) :
    ∀ (k i : Nat) (w : W) (log0 : List (H × Call Page)), i + k ≤ m.num_instances_ →
      ∃ (r : Option (Page × Int)) (m1 : ParallelBufferPoolManager H) (w1 : W)
        (ev : List (H × Call Page)),
        NewPgImp.loop (logNewPage NewPage) m k i (w, log0) = some (r, m1, (w1, log0 ++ ev)) ∧
        NewPgImp.loop NewPage m k i w = some (r, m1, w1) ∧
        ev.length ≤ k ∧ (r = none → ev.length = k) ∧ (ev = [] → r = none) ∧
        ∀ t, t < ev.length →
          ∃ h ret, m.instance_[(m.start_index + (i + t)) % m.num_instances_]? = some h ∧
            ev[t]? = some (h, Call.NewPage ret) ∧
            (t + 1 < ev.length → ret = none) ∧ (t + 1 = ev.length → ret = r) := by
  intro k
  induction k with
  | zero =>
    intro i w log0 _
    exact ⟨none, { m with start_index := (m.start_index + 1) % SIZE }, w, [],
      by simp [NewPgImp.loop], by simp [NewPgImp.loop], by simp, by simp, by simp, by simp⟩
  | succ k ih =>
    intro i w log0 hik
    have hN : m.num_instances_ ≠ 0 := by omega
    have hmod : (m.start_index + i) % SIZE = m.start_index + i := Nat.mod_eq_of_lt (by omega)
    have hlt : (m.start_index + i) % m.num_instances_ < m.instance_.length := by
      rw [hlen]
      exact Nat.mod_lt _ (by omega)
    have hg : m.instance_[(m.start_index + i) % m.num_instances_]?
        = some m.instance_[(m.start_index + i) % m.num_instances_] :=
      List.getElem?_eq_getElem hlt
    rcases hnp : NewPage m.instance_[(m.start_index + i) % m.num_instances_] w with
      ⟨_ | ⟨page, page_id⟩, w1⟩
    · obtain ⟨r, m1, w2, ev, e1, e2, h3, h4, h5, h6⟩ := ih (i + 1) w1
        (log0 ++ [(m.instance_[(m.start_index + i) % m.num_instances_], Call.NewPage none)])
        (by omega)
      refine ⟨r, m1, w2,
        (m.instance_[(m.start_index + i) % m.num_instances_], Call.NewPage none) :: ev,
        ?_, ?_, ?_, ?_, ?_, ?_⟩
      · simp only [NewPgImp.loop, if_neg hN, hmod, hg, logNewPage, hnp]
        rw [e1]
        simp
      · simp only [NewPgImp.loop, if_neg hN, hmod, hg, hnp]
        exact e2
      · simp only [List.length_cons]
        omega
      · intro hr
        simp only [List.length_cons]
        rw [h4 hr]
      · intro hnil
        exact absurd hnil (by simp)
      · intro t ht
        cases t with
        | zero =>
          refine ⟨_, none, hg, by simp, fun _ => rfl, ?_⟩
          intro hl
          simp only [List.length_cons] at hl
          have hev : ev = [] := List.length_eq_zero.mp (by omega)
          exact (h5 hev).symm
        | succ t =>
          simp only [List.length_cons] at ht
          obtain ⟨h, ret, a1, a2, a3, a4⟩ := h6 t (by omega)
          refine ⟨h, ret, ?_, ?_, ?_, ?_⟩
          · rw [← a1]
            congr 2
            omega
          · simpa using a2
          · intro hl
            simp only [List.length_cons] at hl
            exact a3 (by omega)
          · intro hl
            simp only [List.length_cons] at hl
            exact a4 (by omega)
    · refine ⟨some (page, page_id),
        { m with start_index := toSizeT (wrapInt32 (page_id + 1)) % m.num_instances_ }, w1,
        [(m.instance_[(m.start_index + i) % m.num_instances_], Call.NewPage (some (page, page_id)))],
        ?_, ?_, ?_, ?_, ?_, ?_⟩
      · simp only [NewPgImp.loop, if_neg hN, hmod, hg, logNewPage, hnp]
      · simp only [NewPgImp.loop, if_neg hN, hmod, hg, hnp]
      · simp
      · intro hr
        exact absurd hr (by simp)
      · intro hnil
        exact absurd hnil (by simp)
      · intro t ht
        simp only [List.length_singleton] at ht
        have ht0 : t = 0 := by omega
        subst ht0
        exact ⟨_, some (page, page_id), hg, by simp, fun hl => absurd hl (by simp), fun _ => rfl⟩

theorem NewPgImp.loop_total {H W Page : Type} (NewPage : H → W → Option (Page × Int) × W)
    (m : ParallelBufferPoolManager H) (hlen : m.instance_.length = m.num_instances_) :
    ∀ (k i : Nat) (w : W), i + k ≤ m.num_instances_ →
      ∃ r m1 w1, NewPgImp.loop NewPage m k i w = some (r, m1, w1) := by
  intro k
  induction k with
  | zero =>
    intro i w _
    exact ⟨_, _, _, rfl⟩
  | succ k ih =>
    intro i w hik
    have hN : m.num_instances_ ≠ 0 := by omega
    have hlt : (m.start_index + i) % SIZE % m.num_instances_ < m.instance_.length := by
      rw [hlen]
      exact Nat.mod_lt _ (by omega)
    rcases hnp : NewPage m.instance_[(m.start_index + i) % SIZE % m.num_instances_] w with
      ⟨_ | ⟨page, page_id⟩, w1⟩
    · obtain ⟨r, m1, w2, e⟩ := ih (i + 1) w1 (by omega)
      exact ⟨r, m1, w2, by
        simp only [NewPgImp.loop, if_neg hN, List.getElem?_eq_getElem hlt, hnp]
        exact e⟩
    · exact ⟨some (page, page_id),
        { m with start_index := toSizeT (wrapInt32 (page_id + 1)) % m.num_instances_ }, w1, by
        simp only [NewPgImp.loop, if_neg hN, List.getElem?_eq_getElem hlt, hnp]⟩

/-- C1, amended: in a well-formed state with `N > 0` shards whose sweep
`cursor, ..., cursor + N - 1` stays in the range of `size_t`
(`cursor + N ≤ 2 ^ 64`), `NewPgImp` returns,
and the calls it makes are `NewPage` calls only, between 1 and `N` of them, the
`t`-th (from 0) to `instance_[(cursor + t) mod N]`; every call but the last
reported exhaustion, and what the last call returned (page and identifier, or
exhaustion) is what `NewPgImp` returns.  So the first success ends the sweep
and is the result, whatever the shards do. -/
theorem NewPgImp_probes_round_robin {H W Page : Type}
    (NewPage : H → W → Option (Page × Int) × W) (m : ParallelBufferPoolManager H) (w : W)
    (hwf : m.WF) (hN : 0 < m.num_instances_)
    (hc : m.start_index + m.num_instances_ ≤ SIZE) :
    ∃ (r : Option (Page × Int)) (m1 : ParallelBufferPoolManager H) (w1 : W)
      (log : List (H × Call Page)),
      NewPgImp (logNewPage NewPage) m (w, []) = some (r, m1, (w1, log)) ∧
      NewPgImp NewPage m w = some (r, m1, w1) ∧
      1 ≤ log.length ∧ log.length ≤ m.num_instances_ ∧
      ∀ t, t < log.length →
        ∃ h ret, m.instance_[(m.start_index + t) % m.num_instances_]? = some h ∧
          log[t]? = some (h, Call.NewPage ret) ∧
          (t + 1 < log.length → ret = none) ∧ (t + 1 = log.length → ret = r) := by
  obtain ⟨r, m1, w1, ev, e1, e2, h3, h4, h5, h6⟩ :=
    NewPgImp.loop_probes NewPage m hwf.1 hc m.num_instances_ 0 w [] (by omega)
  refine ⟨r, m1, w1, ev, by simpa [NewPgImp] using e1, e2, ?_, h3, ?_⟩
  · cases r with
    | none => rw [h4 rfl]; exact hN
    | some p =>
      cases ev with
      | nil => exact absurd (h5 rfl) (by simp)
      | cons a l => simp
  · intro t ht
    simpa using h6 t ht

/-- Witness of C1 (amended): three shards, cursor 2, only the shard with pointer 10 (index 0)
has room; the sweep probes index 2, then index 0, and stops there. -/
theorem NewPgImp_probes_round_robin_witness :
    (⟨4, 3, [10, 11, 12], 2⟩ : ParallelBufferPoolManager Nat).WF ∧
      NewPgImp (logNewPage (fun (h : Nat) (v : Nat) =>
          if h = 10 then (some (h, (6 : Int)), v + 1) else (none, v + 1)))
        (⟨4, 3, [10, 11, 12], 2⟩ : ParallelBufferPoolManager Nat) (0, [])
        = some (some (10, 6), ⟨4, 3, [10, 11, 12], 1⟩,
            (2, [(12, Call.NewPage none), (10, Call.NewPage (some (10, 6)))])) ∧
      ∃ (r : Option (Nat × Int)) (m1 : ParallelBufferPoolManager Nat) (w1 : Nat)
        (log : List (Nat × Call Nat)),
        NewPgImp (logNewPage (fun (h : Nat) (v : Nat) =>
            if h = 10 then (some (h, (6 : Int)), v + 1) else (none, v + 1)))
          (⟨4, 3, [10, 11, 12], 2⟩ : ParallelBufferPoolManager Nat) (0, [])
          = some (r, m1, (w1, log)) ∧ log.length ≤ 3 := by
  refine ⟨by decide, rfl, ?_⟩
  obtain ⟨r, m1, w1, log, e1, -, -, h4, -⟩ :=
    NewPgImp_probes_round_robin (fun (h : Nat) (v : Nat) =>
        if h = 10 then (some (h, (6 : Int)), v + 1) else (none, v + 1))
      (⟨4, 3, [10, 11, 12], 2⟩ : ParallelBufferPoolManager Nat) 0
      (by decide) (by decide) (by decide)
  exact ⟨r, m1, w1, log, e1, h4⟩

/-- C1 as stated fails: three shards, of which only shard 1 has room, and the
cursor `2 ^ 64 - 1`, in a well-formed state.  The order `cursor, cursor + 1,
cursor + 2` modulo 3 is 0, 1, 2, so the second probe should go to shard 1 and
succeed.  The sum `start_index + 1` of line 80 wraps around to 0: `NewPgImp`
probes the indices 0, 0, 1, calling the allocation primitive of shard 0 twice
before it reaches shard 1. -/
theorem NewPgImp_probe_order_counterexample :
    (⟨1, 3, [0, 1, 2], 18446744073709551615⟩ : ParallelBufferPoolManager Nat).WF ∧
      (18446744073709551615 + 1) % 3 = 1 ∧
      NewPgImp (logNewPage (fun (h : Nat) (v : Unit) =>
          if h = 1 then (some ((), (1 : Int)), v) else (none, v)))
        (⟨1, 3, [0, 1, 2], 18446744073709551615⟩ : ParallelBufferPoolManager Nat) ((), [])
        = some (some ((), 1), ⟨1, 3, [0, 1, 2], 2⟩,
            ((), [(0, Call.NewPage none), (0, Call.NewPage none),
              (1, Call.NewPage (some ((), 1)))])) ∧
      ¬ ∃ (r : Option (Unit × Int)) (m1 : ParallelBufferPoolManager Nat) (w1 : Unit)
          (log : List (Nat × Call Unit)),
          NewPgImp (logNewPage (fun (h : Nat) (v : Unit) =>
              if h = 1 then (some ((), (1 : Int)), v) else (none, v)))
            (⟨1, 3, [0, 1, 2], 18446744073709551615⟩ : ParallelBufferPoolManager Nat) ((), [])
            = some (r, m1, (w1, log)) ∧
          ∀ t, t < log.length →
            ∃ h ret, ([0, 1, 2] : List Nat)[(18446744073709551615 + t) % 3]? = some h ∧
              log[t]? = some (h, Call.NewPage ret) := by
  have e1 : NewPgImp (logNewPage (fun (h : Nat) (v : Unit) =>
        if h = 1 then (some ((), (1 : Int)), v) else (none, v)))
      (⟨1, 3, [0, 1, 2], 18446744073709551615⟩ : ParallelBufferPoolManager Nat) ((), [])
      = some (some ((), 1), ⟨1, 3, [0, 1, 2], 2⟩,
          ((), [(0, Call.NewPage none), (0, Call.NewPage none),
            (1, Call.NewPage (some ((), 1)))])) := rfl
  refine ⟨by decide, by decide, e1, ?_⟩
  rintro ⟨r, m1, w1, log, h1, hall⟩
  rw [e1] at h1
  simp only [Option.some.injEq, Prod.mk.injEq] at h1
  obtain ⟨-, -, -, hlog⟩ := h1
  subst hlog
  obtain ⟨h, ret, a, b⟩ := hall 1 (by decide)
  have ha : ([0, 1, 2] : List Nat)[(18446744073709551615 + 1) % 3]? = some 1 := by decide
  rw [ha] at a
  have hh : h = 1 := (Option.some.inj a).symm
  subst hh
  simp at b

/-- C2, amended: in a well-formed state whose sweep stays in the range of
`size_t` (`cursor + N ≤ 2 ^ 64`), `NewPgImp` returns, and it returns `nullptr` if
and only if
every `NewPage` call it made reported exhaustion; in that case it made `N`
calls, the `t`-th to `instance_[(cursor + t) mod N]`, and the shards it called
are the shard collection rearranged: each shard was probed exactly once. -/
theorem NewPgImp_nullptr_iff_all_exhausted {H W Page : Type}
    (NewPage : H → W → Option (Page × Int) × W) (m : ParallelBufferPoolManager H) (w : W)
    (hwf : m.WF) (hc : m.start_index + m.num_instances_ ≤ SIZE) :
    ∃ (r : Option (Page × Int)) (m1 : ParallelBufferPoolManager H) (w1 : W)
      (log : List (H × Call Page)),
      NewPgImp (logNewPage NewPage) m (w, []) = some (r, m1, (w1, log)) ∧
      NewPgImp NewPage m w = some (r, m1, w1) ∧
      (r = none ↔ ∀ e ∈ log, e.2 = Call.NewPage none) ∧
      (r = none →
        log.length = m.num_instances_ ∧
        (∀ t, t < m.num_instances_ →
          ∃ h, m.instance_[(m.start_index + t) % m.num_instances_]? = some h ∧
            log[t]? = some (h, Call.NewPage none)) ∧
        List.Perm (log.map Prod.fst) m.instance_) := by
  obtain ⟨r, m1, w1, ev, e1, e2, h3, h4, h5, h6⟩ :=
    NewPgImp.loop_probes NewPage m hwf.1 hc m.num_instances_ 0 w [] (by omega)
  have hall : r = none → ∀ t, t < ev.length →
      ∃ h, m.instance_[(m.start_index + t) % m.num_instances_]? = some h ∧
        ev[t]? = some (h, Call.NewPage none) := by
    intro hr t ht
    obtain ⟨h, ret, a1, a2, a3, a4⟩ := h6 t ht
    have hret : ret = none := by
      rcases Nat.lt_or_ge (t + 1) ev.length with hl | hl
      · exact a3 hl
      · rw [a4 (by omega), hr]
    subst hret
    exact ⟨h, by simpa using a1, a2⟩
  refine ⟨r, m1, w1, ev, by simpa [NewPgImp] using e1, e2, ⟨?_, ?_⟩, ?_⟩
  · intro hr e he
    obtain ⟨t, ht⟩ := List.mem_iff_getElem?.mp he
    have htl : t < ev.length := by
      by_contra hcon
      rw [List.getElem?_eq_none (by omega)] at ht
      exact absurd ht (by simp)
    obtain ⟨h, -, b2⟩ := hall hr t htl
    rw [b2] at ht
    rw [← Option.some.inj ht]
  · intro hev
    by_contra hr
    have hne : ev ≠ [] := fun hnil => hr (h5 hnil)
    have hpos : 0 < ev.length := List.length_pos.mpr hne
    obtain ⟨h, ret, -, a2, -, a4⟩ := h6 (ev.length - 1) (by omega)
    have hmem : (h, Call.NewPage ret) ∈ ev := List.mem_iff_getElem?.mpr ⟨_, a2⟩
    have hnone := hev _ hmem
    simp only [Call.NewPage.injEq] at hnone
    exact hr ((a4 (by omega)).symm.trans hnone)
  · intro hr
    have hlen : ev.length = m.num_instances_ := h4 hr
    refine ⟨hlen, fun t ht => hall hr t (by omega), ?_⟩
    have hrot : ev.map Prod.fst = m.instance_.rotate m.start_index := by
      apply List.ext_getElem?
      intro t
      rcases Nat.lt_or_ge t m.num_instances_ with ht | ht
      · obtain ⟨h, b1, b2⟩ := hall hr t (by omega)
        rw [List.getElem?_map, b2, List.getElem?_rotate (by rw [hwf.1]; exact ht), hwf.1,
          Nat.add_comm t, b1]
        rfl
      · rw [List.getElem?_eq_none (by simp; omega),
          List.getElem?_eq_none (by rw [List.length_rotate, hwf.1]; exact ht)]
    rw [hrot]
    exact List.rotate_perm _ _

/-- Witness of C2 (amended): three shards, cursor 1, every shard exhausted. -/
theorem NewPgImp_nullptr_iff_all_exhausted_witness :
    NewPgImp (logNewPage (fun (_ : Nat) (v : Nat) => ((none : Option (Unit × Int)), v + 1)))
        (⟨4, 3, [10, 11, 12], 1⟩ : ParallelBufferPoolManager Nat) (0, [])
        = some (none, ⟨4, 3, [10, 11, 12], 2⟩,
            (3, [(11, Call.NewPage none), (12, Call.NewPage none), (10, Call.NewPage none)])) ∧
      ∃ (r : Option (Unit × Int)) (m1 : ParallelBufferPoolManager Nat) (w1 : Nat)
        (log : List (Nat × Call Unit)),
        NewPgImp (logNewPage (fun (_ : Nat) (v : Nat) => ((none : Option (Unit × Int)), v + 1)))
          (⟨4, 3, [10, 11, 12], 1⟩ : ParallelBufferPoolManager Nat) (0, [])
          = some (r, m1, (w1, log)) ∧
        (r = none ↔ ∀ e ∈ log, e.2 = Call.NewPage none) := by
  refine ⟨rfl, ?_⟩
  obtain ⟨r, m1, w1, log, e1, -, h3, -⟩ :=
    NewPgImp_nullptr_iff_all_exhausted
      (fun (_ : Nat) (v : Nat) => ((none : Option (Unit × Int)), v + 1))
      (⟨4, 3, [10, 11, 12], 1⟩ : ParallelBufferPoolManager Nat) 0
      (by decide) (by decide)
  exact ⟨r, m1, w1, log, e1, h3⟩

/-- C2 as stated fails: three shards, of which only shard 2 has room, and the
cursor `2 ^ 64 - 1`, in a well-formed state with `N = 3 > 0`.  `NewPgImp` probes
the indices 0, 0, 1 (the sum `start_index + i` of line 80 wraps around) and
returns `nullptr`, although shard 2 was never probed and shard 0 was probed
twice: the shards probed are not the shard collection rearranged. -/
theorem NewPgImp_exhaustion_counterexample :
    (⟨1, 3, [0, 1, 2], 18446744073709551615⟩ : ParallelBufferPoolManager Nat).WF ∧
      NewPgImp (logNewPage (fun (h : Nat) (v : Unit) =>
          if h = 2 then (some ((), (5 : Int)), v) else (none, v)))
        (⟨1, 3, [0, 1, 2], 18446744073709551615⟩ : ParallelBufferPoolManager Nat) ((), [])
        = some (none, ⟨1, 3, [0, 1, 2], 0⟩,
            ((), [(0, Call.NewPage none), (0, Call.NewPage none), (1, Call.NewPage none)])) ∧
      ¬ ∃ (r : Option (Unit × Int)) (m1 : ParallelBufferPoolManager Nat) (w1 : Unit)
          (log : List (Nat × Call Unit)),
          NewPgImp (logNewPage (fun (h : Nat) (v : Unit) =>
              if h = 2 then (some ((), (5 : Int)), v) else (none, v)))
            (⟨1, 3, [0, 1, 2], 18446744073709551615⟩ : ParallelBufferPoolManager Nat) ((), [])
            = some (r, m1, (w1, log)) ∧
          (r = none → List.Perm (log.map Prod.fst) [0, 1, 2]) := by
  have e1 : NewPgImp (logNewPage (fun (h : Nat) (v : Unit) =>
        if h = 2 then (some ((), (5 : Int)), v) else (none, v)))
      (⟨1, 3, [0, 1, 2], 18446744073709551615⟩ : ParallelBufferPoolManager Nat) ((), [])
      = some (none, ⟨1, 3, [0, 1, 2], 0⟩,
          ((), [(0, Call.NewPage none), (0, Call.NewPage none), (1, Call.NewPage none)])) := rfl
  refine ⟨by decide, e1, ?_⟩
  rintro ⟨r, m1, w1, log, h1, hperm⟩
  rw [e1] at h1
  simp only [Option.some.injEq, Prod.mk.injEq] at h1
  obtain ⟨hr, -, -, hlog⟩ := h1
  subst hlog
  have hp := hperm hr.symm
  have hcount := hp.count_eq 2
  simp at hcount

/-- C5: in a well-formed state `NewPgImp` returns; and whenever it returns a
page with an identifier `pid` such that `0 ≤ pid` and `pid + 1` does not
overflow `page_id_t`, the cursor it leaves is `(pid + 1) mod N`, which is below
`N`, and the other members are as before. -/
theorem NewPgImp_success_cursor {H W Page : Type}
    (NewPage : H → W → Option (Page × Int) × W) (m : ParallelBufferPoolManager H) (w : W)
    (hwf : m.WF) :
    (∃ r m1 w1, NewPgImp NewPage m w = some (r, m1, w1)) ∧
      ∀ (page : Page) (pid : Int) (m1 : ParallelBufferPoolManager H) (w1 : W),
        NewPgImp NewPage m w = some (some (page, pid), m1, w1) → 0 ≤ pid → pid < INT32_MAX →
          m1.start_index = (pid + 1).toNat % m.num_instances_ ∧
          m1.start_index < m.num_instances_ ∧
          m1.num_instances_ = m.num_instances_ ∧ m1.instance_ = m.instance_ ∧
          m1.pool_size_ = m.pool_size_ := by
  refine ⟨NewPgImp.loop_total NewPage m hwf.1 m.num_instances_ 0 w (by omega), ?_⟩
  intro page pid m1 w1 h h0 h1
  have hN : 0 < m.num_instances_ := by
    rcases Nat.eq_zero_or_pos m.num_instances_ with hz | hpos
    · unfold NewPgImp at h
      rw [hz] at h
      simp [NewPgImp.loop] at h
    · exact hpos
  have hm1 := NewPgImp.loop_state NewPage m _ _ _ _ _ _ h
  have hcur : m1.start_index = (pid + 1).toNat % m.num_instances_ := by
    rw [hm1]
    show toSizeT (wrapInt32 (pid + 1)) % m.num_instances_ = _
    rw [wrapInt32_succ pid h0 h1, toSizeT_of_nonneg (pid + 1) (by omega) (by omega)]
  refine ⟨hcur, ?_, ?_, ?_, ?_⟩
  · rw [hcur]
    exact Nat.mod_lt _ hN
  · rw [hm1]
  · rw [hm1]
  · rw [hm1]

/-- Witness of C5: three shards, cursor 2, the shard with pointer 10 hands out
page identifier 6; the cursor becomes `7 mod 3 = 1`. -/
theorem NewPgImp_success_cursor_witness :
    NewPgImp (fun (h : Nat) (v : Nat) =>
          if h = 10 then (some (h, (6 : Int)), v + 1) else (none, v + 1))
        (⟨4, 3, [10, 11, 12], 2⟩ : ParallelBufferPoolManager Nat) 0
        = some (some (10, 6), ⟨4, 3, [10, 11, 12], 1⟩, 2) ∧
      (⟨4, 3, [10, 11, 12], 1⟩ : ParallelBufferPoolManager Nat).start_index
        = ((6 : Int) + 1).toNat % 3 :=
  ⟨rfl,
    ((NewPgImp_success_cursor (fun (h : Nat) (v : Nat) =>
        if h = 10 then (some (h, (6 : Int)), v + 1) else (none, v + 1))
      (⟨4, 3, [10, 11, 12], 2⟩ : ParallelBufferPoolManager Nat) 0 (by decide)).2
      10 6 ⟨4, 3, [10, 11, 12], 1⟩ 2 rfl (by decide) (by decide)).1⟩

/-! ### The cursor after a sweep without success -/

theorem NewPgImp_failure_cursor {H W Page : Type}
    (NewPage : H → W → Option (Page × Int) × W) (m m1 : ParallelBufferPoolManager H) (w w1 : W)
    (h : NewPgImp NewPage m w = some (none, m1, w1)) :
    m1 = { m with start_index := (m.start_index + 1) % SIZE } :=
  NewPgImp.loop_state NewPage m _ _ _ _ _ _ h

theorem NewPgImp.consecutive_failure_cursor {H W Page : Type}
    (NewPage : H → W → Option (Page × Int) × W) :
    ∀ (k : Nat) (m m2 : ParallelBufferPoolManager H) (w w2 : W) (rs : List (Option (Page × Int))),
      m.start_index < SIZE →
      NewPgImp.consecutive NewPage k m w = some (rs, m2, w2) → (∀ r ∈ rs, r = none) →
        m2 = { m with start_index := (m.start_index + k) % SIZE } := by
  intro k
  induction k with
  | zero =>
    intro m m2 w w2 rs hc h _
    simp only [NewPgImp.consecutive, Option.some.injEq, Prod.mk.injEq] at h
    rw [← h.2.1, Nat.add_zero, Nat.mod_eq_of_lt hc]
  | succ k ih =>
    intro m m2 w w2 rs hc h hall
    simp only [NewPgImp.consecutive] at h
    split at h
    · exact absurd h (by simp)
    · rename_i r m1 w1 hcall
      split at h
      · exact absurd h (by simp)
      · rename_i rs1 m3 w3 hrest
        simp only [Option.some.injEq, Prod.mk.injEq] at h
        obtain ⟨rfl, rfl, rfl⟩ := h
        have hr : r = none := hall r (by simp)
        subst hr
        have hm1 := NewPgImp_failure_cursor NewPage m m1 w w1 hcall
        have hc1 : m1.start_index < SIZE := by
          rw [hm1]
          exact Nat.mod_lt _ (by decide)
        rw [ih m1 m3 w1 w3 rs1 hc1 hrest (fun r hr => hall r (by simp [hr])), hm1]
        simp only [ParallelBufferPoolManager.mk.injEq, true_and, SIZE]
        omega

/-- C3, the code at a failing input: two shards, cursor 1 (in `[0, 2)`), both
exhausted.  `NewPgImp` returns `nullptr` and leaves the cursor at 2, which is
not below the shard count 2. -/
theorem NewPgImp_failure_cursor_leaves_range :
    (⟨1, 2, [0, 1], 1⟩ : ParallelBufferPoolManager Nat).WF ∧
      (⟨1, 2, [0, 1], 1⟩ : ParallelBufferPoolManager Nat).start_index
        < (⟨1, 2, [0, 1], 1⟩ : ParallelBufferPoolManager Nat).num_instances_ ∧
      NewPgImp (fun (_ : Nat) (v : Unit) => ((none : Option (Unit × Int)), v))
        (⟨1, 2, [0, 1], 1⟩ : ParallelBufferPoolManager Nat) ()
        = some (none, ⟨1, 2, [0, 1], 2⟩, ()) ∧
      ¬ (⟨1, 2, [0, 1], 2⟩ : ParallelBufferPoolManager Nat).start_index
        < (⟨1, 2, [0, 1], 2⟩ : ParallelBufferPoolManager Nat).num_instances_ :=
  ⟨by decide, by decide, rfl, by decide⟩

/-- C4, the code at a failing input: three shards, cursor 2, all exhausted.
`NewPgImp` returns `nullptr` and leaves the cursor at 3, whereas
`(2 + 1) mod 3 = 0`. -/
theorem NewPgImp_failure_cursor_not_reduced :
    NewPgImp (fun (_ : Nat) (v : Unit) => ((none : Option (Unit × Int)), v))
        (⟨1, 3, [0, 1, 2], 2⟩ : ParallelBufferPoolManager Nat) ()
        = some (none, ⟨1, 3, [0, 1, 2], 3⟩, ()) ∧
      (⟨1, 3, [0, 1, 2], 3⟩ : ParallelBufferPoolManager Nat).start_index ≠ (2 + 1) % 3 :=
  ⟨rfl, by decide⟩

/-- C6, the code at a failing input: two shards, cursor 0, both exhausted, two
consecutive calls of `NewPgImp`.  Both return `nullptr` and the cursor ends at
2, whereas `(0 + 2) mod 2 = 0`. -/
theorem NewPgImp_consecutive_failures_cursor_not_reduced :
    NewPgImp.consecutive (fun (_ : Nat) (v : Unit) => ((none : Option (Unit × Int)), v)) 2
        (⟨1, 2, [0, 1], 0⟩ : ParallelBufferPoolManager Nat) ()
        = some ([none, none], ⟨1, 2, [0, 1], 2⟩, ()) ∧
      (⟨1, 2, [0, 1], 2⟩ : ParallelBufferPoolManager Nat).start_index ≠ (0 + 2) % 2 :=
  ⟨rfl, by decide⟩

/-! ## Scenario A -/

theorem cursor_after_even (a : Int) (h0 : 0 ≤ a) (h1 : a % 2 = 0) (h2 : a < INT32_MAX) :
    toSizeT (wrapInt32 (a + 1)) % 2 = 1 := by
  rw [wrapInt32_succ a h0 h2, toSizeT_of_nonneg (a + 1) (by omega) (by omega)]
  omega

theorem cursor_after_odd (a : Int) (h0 : 0 ≤ a) (h1 : a % 2 = 1) (h2 : a < INT32_MAX) :
    toSizeT (wrapInt32 (a + 1)) % 2 = 0 := by
  rw [wrapInt32_succ a h0 h2, toSizeT_of_nonneg (a + 1) (by omega) (by omega)]
  omega

/-- C9: Scenario A for every initial cursor `c`.  Two shards of capacity 1, both
empty, shard 0 assigning even and shard 1 odd identifiers (non-negative and
below `INT32_MAX`), and three consecutive `NewPgImp` calls with no unpin in
between.  The first call succeeds and its page is pinned in some shard `s0`
while the other shard stays empty; the second succeeds and its page is pinned in
the other shard while the first page stays pinned; the third returns `nullptr`
and leaves both pages pinned. -/
theorem scenarioA_two_succeed_third_fails (c : Nat) (a0 a1 : Int) (hc : c < SIZE)
    (h00 : 0 ≤ a0) (h01 : a0 % 2 = 0) (h02 : a0 < INT32_MAX)
    (h10 : 0 ≤ a1) (h11 : a1 % 2 = 1) (h12 : a1 < INT32_MAX) :
    ∃ (s0 : Nat) (id1 id2 : Int) (m1 m2 m3 : ParallelBufferPoolManager Nat)
      (w1 w2 : List ScenarioShard),
      s0 < 2 ∧
      NewPgImp ScenarioShard.NewPage (⟨1, 2, [0, 1], c⟩ : ParallelBufferPoolManager Nat)
          [⟨none, a0⟩, ⟨none, a1⟩] = some (some (id1, id1), m1, w1) ∧
      id1 % 2 = (s0 : Int) ∧
      (w1[s0]?).map ScenarioShard.pinned = some (some id1) ∧
      (w1[1 - s0]?).map ScenarioShard.pinned = some none ∧
      NewPgImp ScenarioShard.NewPage m1 w1 = some (some (id2, id2), m2, w2) ∧
      id2 % 2 = ((1 - s0 : Nat) : Int) ∧
      (w2[1 - s0]?).map ScenarioShard.pinned = some (some id2) ∧
      (w2[s0]?).map ScenarioShard.pinned = some (some id1) ∧
      NewPgImp ScenarioShard.NewPage m2 w2 = some (none, m3, w2) := by
  have e0 := cursor_after_even a0 h00 h01 h02
  have e1 := cursor_after_odd a1 h10 h11 h12
  have hmod : c % SIZE = c := Nat.mod_eq_of_lt hc
  rcases Nat.mod_two_eq_zero_or_one c with hpar | hpar
  · refine ⟨0, a0, a1, ⟨1, 2, [0, 1], 1⟩, ⟨1, 2, [0, 1], 0⟩, ⟨1, 2, [0, 1], 1⟩,
      [⟨some a0, a0 + 2⟩, ⟨none, a1⟩], [⟨some a0, a0 + 2⟩, ⟨some a1, a1 + 2⟩],
      by decide, ?_, by simpa using h01, rfl, rfl, ?_, by simpa using h11, rfl, rfl, ?_⟩
    · simp [NewPgImp, NewPgImp.loop, ScenarioShard.NewPage, hmod, hpar, e0]
    · simp [NewPgImp, NewPgImp.loop, ScenarioShard.NewPage, SIZE, e1]
    · simp [NewPgImp, NewPgImp.loop, ScenarioShard.NewPage, SIZE]
  · refine ⟨1, a1, a0, ⟨1, 2, [0, 1], 0⟩, ⟨1, 2, [0, 1], 1⟩, ⟨1, 2, [0, 1], 2⟩,
      [⟨none, a0⟩, ⟨some a1, a1 + 2⟩], [⟨some a0, a0 + 2⟩, ⟨some a1, a1 + 2⟩],
      by decide, ?_, by simpa using h11, rfl, rfl, ?_, by simpa using h01, rfl, rfl, ?_⟩
    · simp [NewPgImp, NewPgImp.loop, ScenarioShard.NewPage, hmod, hpar, e1]
    · simp [NewPgImp, NewPgImp.loop, ScenarioShard.NewPage, SIZE, e0]
    · simp [NewPgImp, NewPgImp.loop, ScenarioShard.NewPage, SIZE]

/-- Witness of C9: initial cursor 5, the shards start at identifiers 0 and 1. -/
theorem scenarioA_two_succeed_third_fails_witness :
    NewPgImp.consecutive ScenarioShard.NewPage 3
        (⟨1, 2, [0, 1], 5⟩ : ParallelBufferPoolManager Nat) [⟨none, 0⟩, ⟨none, 1⟩]
        = some ([some (1, 1), some (0, 0), none], ⟨1, 2, [0, 1], 2⟩,
            [⟨some 0, 2⟩, ⟨some 1, 3⟩]) ∧
      ∃ (s0 : Nat) (id1 : Int) (m1 : ParallelBufferPoolManager Nat) (w1 : List ScenarioShard),
        s0 < 2 ∧
        NewPgImp ScenarioShard.NewPage (⟨1, 2, [0, 1], 5⟩ : ParallelBufferPoolManager Nat)
          [⟨none, 0⟩, ⟨none, 1⟩] = some (some (id1, id1), m1, w1) := by
  refine ⟨rfl, ?_⟩
  obtain ⟨s0, id1, -, m1, -, -, w1, -, hs, h1, -⟩ :=
    scenarioA_two_succeed_third_fails 5 0 1 (by decide) (by decide) (by decide) (by decide)
      (by decide) (by decide) (by decide)
  exact ⟨s0, id1, m1, w1, hs, h1⟩

/-! ## Capacity -/

/-- C11: for the router constructed with shard count `N` and per-shard capacity
`c`, `GetPoolSize` returns `N * c` modulo `2 ^ 64`, and the call leaves the
router object and the world as they were; the same holds in every router state
whose members `num_instances_` and `pool_size_` are `N` and `c`, as they are
after any further method calls. -/
theorem GetPoolSize_constructed {H W Page : Type} (create : Nat → Nat → Nat → W → H × W)
    (bpm : BufferPoolManager H W Page) (N c start_index : Nat) (w0 w : W) :
    GetPoolSize (ParallelBufferPoolManager.new create N c start_index w0).1 = (N * c) % SIZE ∧
      ParallelBufferPoolManager.call bpm Method.GetPoolSize
          (ParallelBufferPoolManager.new create N c start_index w0).1 w
        = some (Ret.size ((N * c) % SIZE),
            (ParallelBufferPoolManager.new create N c start_index w0).1, w) ∧
      ∀ m : ParallelBufferPoolManager H, m.num_instances_ = N → m.pool_size_ = c →
        GetPoolSize m = (N * c) % SIZE ∧
          ParallelBufferPoolManager.call bpm Method.GetPoolSize m w
            = some (Ret.size ((N * c) % SIZE), m, w) := by
  have hgen : ∀ m : ParallelBufferPoolManager H, m.num_instances_ = N → m.pool_size_ = c →
      GetPoolSize m = (N * c) % SIZE ∧
        ParallelBufferPoolManager.call bpm Method.GetPoolSize m w
          = some (Ret.size ((N * c) % SIZE), m, w) := by
    intro m hN hc
    have h : GetPoolSize m = (N * c) % SIZE := by
      simp only [GetPoolSize, hN, hc, Nat.mul_comm]
    exact ⟨h, by simp only [ParallelBufferPoolManager.call, h]⟩
  exact ⟨(hgen _ rfl rfl).1, (hgen _ rfl rfl).2, hgen⟩

/-- Witness of C11: three shards of capacity 4 give 12; `2 ^ 63` shards of
capacity 2 give 0, the product modulo `2 ^ 64`. -/
theorem GetPoolSize_constructed_witness :
    GetPoolSize (⟨4, 3, [10, 11, 12], 2⟩ : ParallelBufferPoolManager Nat) = 12 ∧
      GetPoolSize (ParallelBufferPoolManager.new
          (fun (_ _ i : Nat) (v : Nat) => (100 + i, v + 1)) 3 4 0 0).1 = (3 * 4) % SIZE ∧
      GetPoolSize (⟨2, 9223372036854775808, ([] : List Nat), 0⟩ : ParallelBufferPoolManager Nat)
        = 0 ∧
      ParallelBufferPoolManager.call countingShards Method.GetPoolSize
          (⟨4, 3, [10, 11, 12], 2⟩ : ParallelBufferPoolManager Nat) 0
        = some (Ret.size ((3 * 4) % SIZE), ⟨4, 3, [10, 11, 12], 2⟩, 0) :=
  ⟨by decide,
    (GetPoolSize_constructed (fun (_ _ i : Nat) (v : Nat) => (100 + i, v + 1)) countingShards
      3 4 0 0 0).1,
    by decide,
    ((GetPoolSize_constructed (fun (_ _ i : Nat) (v : Nat) => (100 + i, v + 1)) countingShards
      3 4 0 0 0).2.2 ⟨4, 3, [10, 11, 12], 2⟩ rfl rfl).2⟩

/-! ## What the methods leave alone -/

theorem FlushAllPgsImp.loop_returns {H W : Type} (FlushAllPages : H → W → W)
    (m : ParallelBufferPoolManager H) :
    ∀ (k i : Nat) (w : W), i + k ≤ m.instance_.length →
      ∃ w1, FlushAllPgsImp.loop FlushAllPages m k i w = some w1 := by
  intro k
  induction k with
  | zero =>
    intro i w _
    exact ⟨w, rfl⟩
  | succ k ih =>
    intro i w hik
    have hlt : i < m.instance_.length := by omega
    obtain ⟨w1, e⟩ := ih (i + 1) (FlushAllPages m.instance_[i] w) (by omega)
    exact ⟨w1, by simp only [FlushAllPgsImp.loop, List.getElem?_eq_getElem hlt, e]⟩

theorem GetBufferPoolManager_total {H : Type} (m : ParallelBufferPoolManager H) (page_id : Int)
    (hwf : m.WF) (hN : 0 < m.num_instances_) :
    ∃ h, GetBufferPoolManager m page_id = some h := by
  have hlt : toSizeT page_id % m.num_instances_ < m.instance_.length := by
    rw [hwf.1]
    exact Nat.mod_lt _ hN
  refine ⟨m.instance_[toSizeT page_id % m.num_instances_], ?_⟩
  unfold GetBufferPoolManager
  rw [if_neg (Nat.pos_iff_ne_zero.mp hN)]
  exact List.getElem?_eq_getElem hlt

/-- C12: in a well-formed state with `N > 0` shards, every method other than
`NewPgImp` (that is `GetPoolSize`, `FetchPgImp`, `UnpinPgImp`, `FlushPgImp`,
`DeletePgImp`, `FlushAllPgsImp`, with any arguments and any shard behaviour)
returns and leaves the router object as it was: the same cursor, the same
shard count and the same per-shard capacity. -/
theorem call_other_than_NewPgImp_keeps_state {H W Page : Type} (bpm : BufferPoolManager H W Page)
    (method : Method) (m : ParallelBufferPoolManager H) (w : W)
    (hwf : m.WF) (hN : 0 < m.num_instances_) (hmethod : method ≠ Method.NewPgImp) :
    ∃ (r : Ret Page) (m1 : ParallelBufferPoolManager H) (w1 : W),
      ParallelBufferPoolManager.call bpm method m w = some (r, m1, w1) ∧
      m1.start_index = m.start_index ∧ m1.num_instances_ = m.num_instances_ ∧
      m1.pool_size_ = m.pool_size_ ∧ m1 = m := by
  cases method with
  | GetPoolSize => exact ⟨_, m, w, rfl, rfl, rfl, rfl, rfl⟩
  | FetchPgImp page_id =>
    obtain ⟨h, e⟩ := GetBufferPoolManager_total m page_id hwf hN
    exact ⟨Ret.page (bpm.FetchPage h page_id w).1, m, (bpm.FetchPage h page_id w).2,
      by simp only [ParallelBufferPoolManager.call, FetchPgImp, e], rfl, rfl, rfl, rfl⟩
  | UnpinPgImp page_id is_dirty =>
    obtain ⟨h, e⟩ := GetBufferPoolManager_total m page_id hwf hN
    exact ⟨Ret.flag (bpm.UnpinPage h page_id is_dirty w).1, m, (bpm.UnpinPage h page_id is_dirty w).2,
      by simp only [ParallelBufferPoolManager.call, UnpinPgImp, e], rfl, rfl, rfl, rfl⟩
  | FlushPgImp page_id =>
    obtain ⟨h, e⟩ := GetBufferPoolManager_total m page_id hwf hN
    exact ⟨Ret.flag (bpm.FlushPage h page_id w).1, m, (bpm.FlushPage h page_id w).2,
      by simp only [ParallelBufferPoolManager.call, FlushPgImp, e], rfl, rfl, rfl, rfl⟩
  | NewPgImp => exact absurd rfl hmethod
  | DeletePgImp page_id =>
    obtain ⟨h, e⟩ := GetBufferPoolManager_total m page_id hwf hN
    exact ⟨Ret.flag (bpm.DeletePage h page_id w).1, m, (bpm.DeletePage h page_id w).2,
      by simp only [ParallelBufferPoolManager.call, DeletePgImp, e], rfl, rfl, rfl, rfl⟩
  | FlushAllPgsImp =>
    obtain ⟨w1, e⟩ := FlushAllPgsImp.loop_returns bpm.FlushAllPages m m.num_instances_ 0 w
      (by rw [hwf.1]; omega)
    exact ⟨Ret.void, m, w1, by simp only [ParallelBufferPoolManager.call, FlushAllPgsImp, e],
      rfl, rfl, rfl, rfl⟩

/-- Witness of C12: three shards, cursor 2, unpinning page 7. -/
theorem call_other_than_NewPgImp_keeps_state_witness :
    ParallelBufferPoolManager.call countingShards (Method.UnpinPgImp 7 true)
        (⟨4, 3, [10, 11, 12], 2⟩ : ParallelBufferPoolManager Nat) 0
        = some (Ret.flag true, ⟨4, 3, [10, 11, 12], 2⟩, 1) ∧
      ∃ (r : Ret Nat) (m1 : ParallelBufferPoolManager Nat) (w1 : Nat),
        ParallelBufferPoolManager.call countingShards (Method.UnpinPgImp 7 true)
          (⟨4, 3, [10, 11, 12], 2⟩ : ParallelBufferPoolManager Nat) 0 = some (r, m1, w1) ∧
        m1.start_index = 2 := by
  refine ⟨rfl, ?_⟩
  obtain ⟨r, m1, w1, e, hc, -⟩ :=
    call_other_than_NewPgImp_keeps_state countingShards (Method.UnpinPgImp 7 true)
      (⟨4, 3, [10, 11, 12], 2⟩ : ParallelBufferPoolManager Nat) 0
      (by decide) (by decide) (by decide)
  exact ⟨r, m1, w1, e, hc⟩

/-! ## Independence of the cursor -/

/-- C13: two router states that differ only in `start_index` (cursor `c1`
against cursor `c2`, the other members those of `m`) select the same shard for
every page identifier, and `FetchPgImp`, `UnpinPgImp`, `FlushPgImp` and
`DeletePgImp` give the same result and the same world in both, for every shard
behaviour; in a well-formed state with `N > 0` shards that common selection is
a shard. -/
theorem keyed_operations_ignore_cursor {H W Page : Type} (bpm : BufferPoolManager H W Page)
    (m : ParallelBufferPoolManager H) (c1 c2 : Nat) (page_id : Int) (is_dirty : Bool) (w : W) :
    GetBufferPoolManager { m with start_index := c1 } page_id
        = GetBufferPoolManager { m with start_index := c2 } page_id ∧
      FetchPgImp bpm.FetchPage { m with start_index := c1 } page_id w
        = FetchPgImp bpm.FetchPage { m with start_index := c2 } page_id w ∧
      UnpinPgImp bpm.UnpinPage { m with start_index := c1 } page_id is_dirty w
        = UnpinPgImp bpm.UnpinPage { m with start_index := c2 } page_id is_dirty w ∧
      FlushPgImp bpm.FlushPage { m with start_index := c1 } page_id w
        = FlushPgImp bpm.FlushPage { m with start_index := c2 } page_id w ∧
      DeletePgImp bpm.DeletePage { m with start_index := c1 } page_id w
        = DeletePgImp bpm.DeletePage { m with start_index := c2 } page_id w ∧
      (m.instance_.length = m.num_instances_ → 0 < m.num_instances_ →
        ∃ h, GetBufferPoolManager { m with start_index := c1 } page_id = some h ∧
          GetBufferPoolManager { m with start_index := c2 } page_id = some h) := by
  have hsel : GetBufferPoolManager { m with start_index := c1 } page_id
      = GetBufferPoolManager { m with start_index := c2 } page_id := by
    simp only [GetBufferPoolManager]
  refine ⟨hsel, ?_, ?_, ?_, ?_, ?_⟩
  · simp only [FetchPgImp, hsel]
  · simp only [UnpinPgImp, hsel]
  · simp only [FlushPgImp, hsel]
  · simp only [DeletePgImp, hsel]
  · intro hlen hN
    have hlt : toSizeT page_id % m.num_instances_ < m.instance_.length := by
      rw [hlen]
      exact Nat.mod_lt _ hN
    refine ⟨m.instance_[toSizeT page_id % m.num_instances_], ?_, ?_⟩
    · simp only [GetBufferPoolManager, if_neg (Nat.pos_iff_ne_zero.mp hN)]
      exact List.getElem?_eq_getElem hlt
    · simp only [GetBufferPoolManager, if_neg (Nat.pos_iff_ne_zero.mp hN)]
      exact List.getElem?_eq_getElem hlt

/-- Witness of C13: three shards, page 7, cursors 0 and 5. -/
theorem keyed_operations_ignore_cursor_witness :
    FetchPgImp countingShards.FetchPage (⟨4, 3, [10, 11, 12], 0⟩ : ParallelBufferPoolManager Nat) 7 0
        = some (some 18, 1) ∧
      FetchPgImp countingShards.FetchPage (⟨4, 3, [10, 11, 12], 0⟩ : ParallelBufferPoolManager Nat) 7 0
        = FetchPgImp countingShards.FetchPage
            (⟨4, 3, [10, 11, 12], 5⟩ : ParallelBufferPoolManager Nat) 7 0 :=
  ⟨rfl, (keyed_operations_ignore_cursor countingShards
    (⟨4, 3, [10, 11, 12], 9⟩ : ParallelBufferPoolManager Nat) 0 5 7 true 0).2.1⟩

/-! ## Construction of the shard collection -/

theorem ParallelBufferPoolManager.newLoop_creates {H W : Type}
    (create : Nat → Nat → Nat → W → H × W) (pool_size num_instances : Nat) :
    ∀ (k i : Nat) (acc : List H) (w : W) (log0 : List (H × Nat × Nat × Nat)),
      ∃ (ev : List (H × Nat × Nat × Nat)),
        (ParallelBufferPoolManager.newLoop (logCreate create) pool_size num_instances k i acc
            (w, log0)).1 = acc ++ ev.map Prod.fst ∧
        (ParallelBufferPoolManager.newLoop (logCreate create) pool_size num_instances k i acc
            (w, log0)).2.2 = log0 ++ ev ∧
        ev.map Prod.snd = (List.range' i k).map (fun j => (pool_size, num_instances, j)) ∧
        ParallelBufferPoolManager.newLoop create pool_size num_instances k i acc w
          = (acc ++ ev.map Prod.fst,
              (ParallelBufferPoolManager.newLoop (logCreate create) pool_size num_instances k i acc
                (w, log0)).2.1) := by
  intro k
  induction k with
  | zero =>
    intro i acc w log0
    exact ⟨[], by simp [ParallelBufferPoolManager.newLoop]⟩
  | succ k ih =>
    intro i acc w log0
    obtain ⟨ev, e1, e2, e3, e4⟩ := ih (i + 1)
      (acc ++ [(create pool_size num_instances i w).1]) (create pool_size num_instances i w).2
      (log0 ++ [((create pool_size num_instances i w).1, pool_size, num_instances, i)])
    refine ⟨((create pool_size num_instances i w).1, pool_size, num_instances, i) :: ev,
      ?_, ?_, ?_, ?_⟩
    · simp only [ParallelBufferPoolManager.newLoop, logCreate]
      rw [e1]
      simp
    · simp only [ParallelBufferPoolManager.newLoop, logCreate]
      rw [e2]
      simp
    · simp only [List.map_cons, List.range'_succ, e3]
    · simp only [ParallelBufferPoolManager.newLoop, logCreate]
      rw [e4]
      simp

theorem NewPgImp_keeps_collection {H W Page : Type}
    (NewPage : H → W → Option (Page × Int) × W) (m m1 : ParallelBufferPoolManager H) (w w1 : W)
    (r : Option (Page × Int)) (h : NewPgImp NewPage m w = some (r, m1, w1)) :
    m1.instance_ = m.instance_ ∧ m1.num_instances_ = m.num_instances_ ∧
      m1.pool_size_ = m.pool_size_ := by
  rw [NewPgImp.loop_state NewPage m _ _ _ _ _ _ h]
  exact ⟨rfl, rfl, rfl⟩

theorem call_keeps_collection {H W Page : Type} (bpm : BufferPoolManager H W Page)
    (method : Method) (m m1 : ParallelBufferPoolManager H) (w w1 : W) (r : Ret Page)
    (h : ParallelBufferPoolManager.call bpm method m w = some (r, m1, w1)) :
    m1.instance_ = m.instance_ ∧ m1.num_instances_ = m.num_instances_ ∧
      m1.pool_size_ = m.pool_size_ := by
  cases method with
  | GetPoolSize =>
    simp only [ParallelBufferPoolManager.call, Option.some.injEq, Prod.mk.injEq] at h
    rw [← h.2.1]
    exact ⟨rfl, rfl, rfl⟩
  | NewPgImp =>
    simp only [ParallelBufferPoolManager.call] at h
    split at h
    · exact absurd h (by simp)
    · rename_i r0 m0 w0 hcall
      simp only [Option.some.injEq, Prod.mk.injEq] at h
      rw [← h.2.1]
      exact NewPgImp_keeps_collection bpm.NewPage m m0 w w0 r0 hcall
  | FlushAllPgsImp =>
    simp only [ParallelBufferPoolManager.call] at h
    split at h
    · exact absurd h (by simp)
    · simp only [Option.some.injEq, Prod.mk.injEq] at h
      rw [← h.2.1]
      exact ⟨rfl, rfl, rfl⟩
  | FetchPgImp page_id =>
    simp only [ParallelBufferPoolManager.call] at h
    split at h
    · exact absurd h (by simp)
    · simp only [Option.some.injEq, Prod.mk.injEq] at h
      rw [← h.2.1]
      exact ⟨rfl, rfl, rfl⟩
  | UnpinPgImp page_id is_dirty =>
    simp only [ParallelBufferPoolManager.call] at h
    split at h
    · exact absurd h (by simp)
    · simp only [Option.some.injEq, Prod.mk.injEq] at h
      rw [← h.2.1]
      exact ⟨rfl, rfl, rfl⟩
  | FlushPgImp page_id =>
    simp only [ParallelBufferPoolManager.call] at h
    split at h
    · exact absurd h (by simp)
    · simp only [Option.some.injEq, Prod.mk.injEq] at h
      rw [← h.2.1]
      exact ⟨rfl, rfl, rfl⟩
  | DeletePgImp page_id =>
    simp only [ParallelBufferPoolManager.call] at h
    split at h
    · exact absurd h (by simp)
    · simp only [Option.some.injEq, Prod.mk.injEq] at h
      rw [← h.2.1]
      exact ⟨rfl, rfl, rfl⟩

/-- C15: the constructor called with shard count `N` and per-shard capacity `c`
makes exactly `N` shard constructions; the `i`-th (from 0) has the arguments
`(c, N, i)` and the pointer it returns is `instance_[i]`, so `instance_` has
length `N` and the partition identities `0, ..., N-1` are pairwise distinct; the
members `num_instances_` and `pool_size_` are `N` and `c`; and every method
call that returns leaves `instance_` (its length and order) as it was. -/
theorem constructor_builds_collection {H W : Type} (create : Nat → Nat → Nat → W → H × W)
    (N c start_index : Nat) (w : W) :
    ∃ (m : ParallelBufferPoolManager H) (w1 : W) (log : List (H × Nat × Nat × Nat)),
      ParallelBufferPoolManager.new (logCreate create) N c start_index (w, []) = (m, (w1, log)) ∧
      ParallelBufferPoolManager.new create N c start_index w = (m, w1) ∧
      m.instance_.length = N ∧ m.num_instances_ = N ∧ m.pool_size_ = c ∧
      log.map Prod.fst = m.instance_ ∧
      log.map Prod.snd = (List.range N).map (fun i => (c, N, i)) ∧
      (log.map (fun e => e.2.2.2)).Nodup ∧
      ∀ (Page : Type) (bpm : BufferPoolManager H W Page) (method : Method)
        (m0 m1 : ParallelBufferPoolManager H) (v v1 : W) (r : Ret Page),
        ParallelBufferPoolManager.call bpm method m0 v = some (r, m1, v1) →
          m1.instance_ = m0.instance_ ∧ m1.instance_.length = m0.instance_.length := by
  obtain ⟨ev, e1, e2, e3, e4⟩ :=
    ParallelBufferPoolManager.newLoop_creates create c N N 0 [] w []
  simp only [List.nil_append] at e1 e2 e4
  have hlen : ev.length = N := by
    have := congrArg List.length e3
    simpa using this
  refine ⟨⟨c, N, ev.map Prod.fst, start_index⟩,
    (ParallelBufferPoolManager.newLoop (logCreate create) c N N 0 [] (w, [])).2.1, ev,
    ?_, ?_, ?_, rfl, rfl, rfl, ?_, ?_, ?_⟩
  · simp only [ParallelBufferPoolManager.new, e1, Prod.mk.injEq, true_and]
    exact Prod.ext rfl e2
  · simp only [ParallelBufferPoolManager.new, e4]
  · simp [hlen]
  · rw [e3, List.range_eq_range']
  · have hmap : ev.map (fun e => e.2.2.2) = List.range N := by
      have h2 : ev.map (fun e => e.2.2.2) = (ev.map Prod.snd).map (fun a => a.2.2) := by
        simp [List.map_map]
      have hid : ((fun a : Nat × Nat × Nat => a.2.2) ∘ fun j => (c, N, j)) = id := rfl
      rw [h2, e3, List.range_eq_range', List.map_map, hid, List.map_id]
    rw [hmap]
    exact List.nodup_range N
  · intro Page bpm method m0 m1 v v1 r h
    have hk := (call_keeps_collection bpm method m0 m1 v v1 r h).1
    exact ⟨hk, by rw [hk]⟩

/-- Witness of C15: three shards of capacity 4; a pointer is `100 + i`. -/
theorem constructor_builds_collection_witness :
    ParallelBufferPoolManager.new
        (logCreate (fun (_ _ i : Nat) (v : Nat) => (100 + i, v + 1))) 3 4 0 (0, [])
        = (⟨4, 3, [100, 101, 102], 0⟩,
            (3, [(100, 4, 3, 0), (101, 4, 3, 1), (102, 4, 3, 2)])) ∧
      ∃ (m : ParallelBufferPoolManager Nat) (w1 : Nat),
        ParallelBufferPoolManager.new (fun (_ _ i : Nat) (v : Nat) => (100 + i, v + 1)) 3 4 0 0
          = (m, w1) ∧ m.instance_.length = 3 := by
  refine ⟨rfl, ?_⟩
  obtain ⟨m, w1, -, -, e, hlen, -⟩ :=
    constructor_builds_collection (fun (_ _ i : Nat) (v : Nat) => (100 + i, v + 1)) 3 4 0 0
  exact ⟨m, w1, e, hlen⟩

/-! ## The cursor and its residue modulo the shard count -/

theorem NewPgImp.loop_index_congr {H W Page : Type} (NewPage : H → W → Option (Page × Int) × W)
    (m m2 : ParallelBufferPoolManager H) (hN : m2.num_instances_ = m.num_instances_)
    (hI : m2.instance_ = m.instance_) :
    ∀ (k i : Nat) (w : W),
      (∀ j, i ≤ j → j < i + k →
        (m2.start_index + j) % SIZE % m.num_instances_
          = (m.start_index + j) % SIZE % m.num_instances_) →
      (NewPgImp.loop NewPage m2 k i w).map (fun x => (x.1, x.2.2))
        = (NewPgImp.loop NewPage m k i w).map (fun x => (x.1, x.2.2)) := by
  intro k
  induction k with
  | zero =>
    intro i w _
    simp [NewPgImp.loop]
  | succ k ih =>
    intro i w hidx
    have hi := hidx i (Nat.le_refl i) (by omega)
    simp only [NewPgImp.loop, hN, hI, hi]
    by_cases hz : m.num_instances_ = 0
    · simp only [if_pos hz]
    · simp only [if_neg hz]
      cases hg : m.instance_[(m.start_index + i) % SIZE % m.num_instances_]? with
      | none => rfl
      | some h =>
        simp only []
        rcases hnp : NewPage h w with ⟨_ | ⟨page, page_id⟩, w1⟩
        · simp only []
          exact ih (i + 1) w1 (fun j h1 h2 => hidx j (by omega) (by omega))
        · simp only [Option.map_some']

/-- C16, amended: in a well-formed state with `N > 0` shards and a cursor `c`
such that `c + N ≤ 2 ^ 64`, `NewPgImp` started from cursor `c` and `NewPgImp`
started from cursor `c mod N` both return, make the same calls in the same
order, return the same result and leave the same world, and the cursors they
leave are congruent modulo `N`. -/
theorem NewPgImp_depends_on_cursor_residue {H W Page : Type}
    (NewPage : H → W → Option (Page × Int) × W) (m : ParallelBufferPoolManager H) (w : W)
    (hwf : m.WF) (hN : 0 < m.num_instances_)
    (hc : m.start_index + m.num_instances_ ≤ SIZE) :
    ∃ (r : Option (Page × Int)) (m1 m2 : ParallelBufferPoolManager H) (w1 : W)
      (log : List (H × Call Page)),
      NewPgImp (logNewPage NewPage) m (w, []) = some (r, m1, (w1, log)) ∧
      NewPgImp (logNewPage NewPage)
          { m with start_index := m.start_index % m.num_instances_ } (w, [])
        = some (r, m2, (w1, log)) ∧
      m1.start_index % m.num_instances_ = m2.start_index % m.num_instances_ := by
  obtain ⟨r, m1, s1, e1⟩ :=
    NewPgImp.loop_total (logNewPage NewPage) m hwf.1 m.num_instances_ 0 (w, []) (by omega)
  have hle : m.start_index % m.num_instances_ ≤ m.start_index := Nat.mod_le _ _
  have hcongr := NewPgImp.loop_index_congr (logNewPage NewPage) m
    { m with start_index := m.start_index % m.num_instances_ } rfl rfl m.num_instances_ 0 (w, [])
    (by
      intro j _ hj
      show (m.start_index % m.num_instances_ + j) % SIZE % m.num_instances_ = _
      rw [Nat.mod_eq_of_lt (by omega : m.start_index % m.num_instances_ + j < SIZE),
        Nat.mod_eq_of_lt (by omega : m.start_index + j < SIZE), Nat.mod_add_mod])
  rw [e1] at hcongr
  simp only [Option.map_some'] at hcongr
  obtain ⟨⟨r2, m2, s2⟩, e2, hrs⟩ := Option.map_eq_some'.mp hcongr
  simp only [Prod.mk.injEq] at hrs
  obtain ⟨hr, hs⟩ := hrs
  subst hr
  subst hs
  have hm1 := NewPgImp.loop_state (logNewPage NewPage) m _ _ _ _ _ _ e1
  have hm2 := NewPgImp.loop_state (logNewPage NewPage)
    { m with start_index := m.start_index % m.num_instances_ } _ _ _ _ _ _ e2
  refine ⟨r2, m1, m2, s2.1, s2.2, e1, e2, ?_⟩
  rw [hm1, hm2]
  cases r2 with
  | some p => rfl
  | none =>
    show (m.start_index + 1) % SIZE % m.num_instances_
      = (m.start_index % m.num_instances_ + 1) % SIZE % m.num_instances_
    rcases Nat.lt_or_ge (m.start_index + 1) SIZE with hlt | hge
    · rw [Nat.mod_eq_of_lt hlt,
        Nat.mod_eq_of_lt (by omega : m.start_index % m.num_instances_ + 1 < SIZE),
        Nat.mod_add_mod]
    · have h1 : m.num_instances_ = 1 := by omega
      rw [h1, Nat.mod_one, Nat.mod_one]

/-- Witness of C16 (amended): three shards, cursor 5, only shard 10 has room. -/
theorem NewPgImp_depends_on_cursor_residue_witness :
    NewPgImp (logNewPage countingShards.NewPage)
        (⟨4, 3, [10, 11, 12], 5⟩ : ParallelBufferPoolManager Nat) (0, [])
        = some (some (10, 6), ⟨4, 3, [10, 11, 12], 1⟩,
            (2, [(12, Call.NewPage none), (10, Call.NewPage (some (10, 6)))])) ∧
      ∃ (r : Option (Nat × Int)) (m1 m2 : ParallelBufferPoolManager Nat) (w1 : Nat)
        (log : List (Nat × Call Nat)),
        NewPgImp (logNewPage countingShards.NewPage)
          (⟨4, 3, [10, 11, 12], 5⟩ : ParallelBufferPoolManager Nat) (0, [])
          = some (r, m1, (w1, log)) ∧
        NewPgImp (logNewPage countingShards.NewPage)
          (⟨4, 3, [10, 11, 12], 5 % 3⟩ : ParallelBufferPoolManager Nat) (0, [])
          = some (r, m2, (w1, log)) :=
  ⟨rfl, by
    obtain ⟨r, m1, m2, w1, log, e1, e2, -⟩ :=
      NewPgImp_depends_on_cursor_residue countingShards.NewPage
        (⟨4, 3, [10, 11, 12], 5⟩ : ParallelBufferPoolManager Nat) 0
        (by decide) (by decide) (by decide)
    exact ⟨r, m1, m2, w1, log, e1, e2⟩⟩

/-- C16 as stated fails: three shards, of which only shard 2 has room, and the
cursor `2 ^ 64 - 1`, whose residue modulo 3 is 0.  From that cursor `NewPgImp`
probes the indices 0, 0, 1 (the sum `start_index + i` wraps around) and returns
`nullptr`; from cursor 0 it probes 0, 1, 2 and returns the page of shard 2.  So
the two calls neither probe the same shards nor return the same result. -/
theorem NewPgImp_cursor_residue_counterexample :
    (⟨1, 3, [0, 1, 2], 18446744073709551615⟩ : ParallelBufferPoolManager Nat).WF ∧
      18446744073709551615 % 3 = 0 ∧
      NewPgImp (logNewPage (fun (h : Nat) (v : Unit) =>
          if h = 2 then (some ((), (2 : Int)), v) else (none, v)))
        (⟨1, 3, [0, 1, 2], 18446744073709551615⟩ : ParallelBufferPoolManager Nat) ((), [])
        = some (none, ⟨1, 3, [0, 1, 2], 0⟩,
            ((), [(0, Call.NewPage none), (0, Call.NewPage none), (1, Call.NewPage none)])) ∧
      NewPgImp (logNewPage (fun (h : Nat) (v : Unit) =>
          if h = 2 then (some ((), (2 : Int)), v) else (none, v)))
        (⟨1, 3, [0, 1, 2], 0⟩ : ParallelBufferPoolManager Nat) ((), [])
        = some (some ((), 2), ⟨1, 3, [0, 1, 2], 0⟩,
            ((), [(0, Call.NewPage none), (1, Call.NewPage none),
              (2, Call.NewPage (some ((), 2)))])) ∧
      ¬ ∃ (r : Option (Unit × Int)) (m1 m2 : ParallelBufferPoolManager Nat) (w1 : Unit)
          (log : List (Nat × Call Unit)),
          NewPgImp (logNewPage (fun (h : Nat) (v : Unit) =>
              if h = 2 then (some ((), (2 : Int)), v) else (none, v)))
            (⟨1, 3, [0, 1, 2], 18446744073709551615⟩ : ParallelBufferPoolManager Nat) ((), [])
            = some (r, m1, (w1, log)) ∧
          NewPgImp (logNewPage (fun (h : Nat) (v : Unit) =>
              if h = 2 then (some ((), (2 : Int)), v) else (none, v)))
            (⟨1, 3, [0, 1, 2], 18446744073709551615 % 3⟩ : ParallelBufferPoolManager Nat) ((), [])
            = some (r, m2, (w1, log)) := by
  have e1 : NewPgImp (logNewPage (fun (h : Nat) (v : Unit) =>
        if h = 2 then (some ((), (2 : Int)), v) else (none, v)))
      (⟨1, 3, [0, 1, 2], 18446744073709551615⟩ : ParallelBufferPoolManager Nat) ((), [])
      = some (none, ⟨1, 3, [0, 1, 2], 0⟩,
          ((), [(0, Call.NewPage none), (0, Call.NewPage none), (1, Call.NewPage none)])) := rfl
  have e2 : NewPgImp (logNewPage (fun (h : Nat) (v : Unit) =>
        if h = 2 then (some ((), (2 : Int)), v) else (none, v)))
      (⟨1, 3, [0, 1, 2], 0⟩ : ParallelBufferPoolManager Nat) ((), [])
      = some (some ((), 2), ⟨1, 3, [0, 1, 2], 0⟩,
          ((), [(0, Call.NewPage none), (1, Call.NewPage none),
            (2, Call.NewPage (some ((), 2)))])) := rfl
  refine ⟨by decide, by decide, e1, e2, ?_⟩
  rintro ⟨r, m1, m2, w1, log, h1, h2⟩
  have h0 : (18446744073709551615 : Nat) % 3 = 0 := by decide
  rw [h0, e2] at h2
  rw [e1] at h1
  simp only [Option.some.injEq, Prod.mk.injEq] at h1 h2
  exact absurd (h2.1.trans h1.1.symm) (by simp)

/-! ## Allocation when shard `i` assigns identifiers congruent to `i` -/

theorem NewPgImp.loop_success_shard {H W Page : Type}
    (NewPage : H → W → Option (Page × Int) × W) (m : ParallelBufferPoolManager H) :
    ∀ (k i : Nat) (w : W) (log0 : List (H × Call Page)) (page : Page) (pid : Int)
      (m1 : ParallelBufferPoolManager H) (w1 : W) (log : List (H × Call Page)),
      NewPgImp.loop (logNewPage NewPage) m k i (w, log0)
          = some (some (page, pid), m1, (w1, log)) →
        ∃ (j : Nat) (h : H) (w0 : W), j < m.num_instances_ ∧ m.instance_[j]? = some h ∧
          NewPage h w0 = (some (page, pid), w1) ∧
          log.getLast? = some (h, Call.NewPage (some (page, pid))) := by
  intro k
  induction k with
  | zero =>
    intro i w log0 page pid m1 w1 log h
    simp [NewPgImp.loop] at h
  | succ k ih =>
    intro i w log0 page pid m1 w1 log h
    simp only [NewPgImp.loop] at h
    by_cases hz : m.num_instances_ = 0
    · simp only [if_pos hz] at h
      exact absurd h (by simp)
    · simp only [if_neg hz] at h
      cases hg : m.instance_[(m.start_index + i) % SIZE % m.num_instances_]? with
      | none =>
        simp only [hg] at h
        exact absurd h (by simp)
      | some h0 =>
        simp only [hg, logNewPage] at h
        rcases hnp : NewPage h0 w with ⟨_ | ⟨p, q⟩, w2⟩
        · simp only [hnp] at h
          exact ih (i + 1) w2 _ page pid m1 w1 log h
        · simp only [hnp, Option.some.injEq, Prod.mk.injEq] at h
          obtain ⟨⟨hp, hq⟩, -, hw, hl⟩ := h
          subst hp
          subst hq
          subst hw
          refine ⟨_, h0, w, Nat.mod_lt _ (Nat.pos_of_ne_zero hz), hg, hnp, ?_⟩
          rw [← hl]
          simp

/-- C17: suppose the shard at every position `i` of `instance_` only assigns
identifiers `q` congruent to `i` modulo `N`, with `0 ≤ q` and `q + 1` within
`page_id_t`.  If `NewPgImp` returns a page with identifier `pid`, then the last
call it made is the `NewPage` of some shard `instance_[j]`, `j < N`, which
returned that page and identifier; the cursor it leaves is `(j + 1) mod N`; and
`GetBufferPoolManager` routes `pid` to that same shard, `pid mod N = j`. -/
theorem NewPgImp_success_cursor_follows_shard {H W Page : Type}
    (NewPage : H → W → Option (Page × Int) × W) (m m1 : ParallelBufferPoolManager H)
    (w w1 : W) (page : Page) (pid : Int) (log : List (H × Call Page))
    (hassign : ∀ (i : Nat) (h : H) (v v1 : W) (p : Page) (q : Int),
      m.instance_[i]? = some h → NewPage h v = (some (p, q), v1) →
        0 ≤ q ∧ q < INT32_MAX ∧ q.toNat % m.num_instances_ = i)
    (hrun : NewPgImp (logNewPage NewPage) m (w, []) = some (some (page, pid), m1, (w1, log))) :
    ∃ (j : Nat) (h : H), j < m.num_instances_ ∧ m.instance_[j]? = some h ∧
      log.getLast? = some (h, Call.NewPage (some (page, pid))) ∧
      m1.start_index = (j + 1) % m.num_instances_ ∧
      GetBufferPoolManager m1 pid = some h ∧ pid.toNat % m.num_instances_ = j := by
  obtain ⟨j, h, w0, hj, hg, hnp, hlast⟩ :=
    NewPgImp.loop_success_shard NewPage m _ _ _ _ _ _ _ _ _ hrun
  obtain ⟨h0, h1, hmod⟩ := hassign j h w0 w1 page pid hg hnp
  have hm1 := NewPgImp.loop_state (logNewPage NewPage) m _ _ _ _ _ _ hrun
  have hN : m.num_instances_ ≠ 0 := by omega
  refine ⟨j, h, hj, hg, hlast, ?_, ?_, hmod⟩
  · rw [hm1]
    show toSizeT (wrapInt32 (pid + 1)) % m.num_instances_ = _
    rw [wrapInt32_succ pid h0 h1, toSizeT_of_nonneg (pid + 1) (by omega) (by omega)]
    have hs : (pid + 1).toNat = pid.toNat + 1 := by omega
    rw [hs, ← hmod, Nat.mod_add_mod]
  · rw [hm1]
    simp only [GetBufferPoolManager, if_neg hN]
    rw [toSizeT_of_nonneg pid h0 (by omega), hmod]
    exact hg

/-- Witness of C17: three shards, cursor 2; shard 10 at position 0 assigns
identifier 6, congruent to 0 modulo 3, and the other shards assign nothing. -/
theorem NewPgImp_success_cursor_follows_shard_witness :
    NewPgImp (logNewPage countingShards.NewPage)
        (⟨4, 3, [10, 11, 12], 2⟩ : ParallelBufferPoolManager Nat) (0, [])
        = some (some (10, 6), ⟨4, 3, [10, 11, 12], 1⟩,
            (2, [(12, Call.NewPage none), (10, Call.NewPage (some (10, 6)))])) ∧
      ∃ (j h : Nat), j < 3 ∧ ([10, 11, 12] : List Nat)[j]? = some h ∧
        (⟨4, 3, [10, 11, 12], 1⟩ : ParallelBufferPoolManager Nat).start_index = (j + 1) % 3 ∧
        GetBufferPoolManager (⟨4, 3, [10, 11, 12], 1⟩ : ParallelBufferPoolManager Nat) 6
          = some h := by
  refine ⟨rfl, ?_⟩
  obtain ⟨j, h, hj, hg, -, hc, hr, -⟩ :=
    NewPgImp_success_cursor_follows_shard countingShards.NewPage
      (⟨4, 3, [10, 11, 12], 2⟩ : ParallelBufferPoolManager Nat) ⟨4, 3, [10, 11, 12], 1⟩
      0 2 10 6 [(12, Call.NewPage none), (10, Call.NewPage (some (10, 6)))]
      (by
        intro i h v v1 p q hi hnp
        simp only [countingShards] at hnp
        by_cases hh : h = 10
        · subst hh
          simp only [if_true, Prod.mk.injEq, Option.some.injEq] at hnp
          obtain ⟨⟨-, hq⟩, -⟩ := hnp
          subst hq
          have hi0 : i = 0 := by
            match i, hi with
            | 0, _ => rfl
            | 1, hi => simp at hi
            | 2, hi => simp at hi
            | (n + 3), hi => simp at hi
          subst hi0
          decide
        · simp only [if_neg hh, Prod.mk.injEq] at hnp
          exact absurd hnp.1 (by simp))
      rfl
  exact ⟨j, h, hj, hg, hc, hr⟩

end bustub
